import Mathlib

/-!
# melodyGen: shallow embedding of the melody engine

This file embeds, in Lean 4, the core of the melodyGen backend
(`scale_utils.py`, `transformations.py`, `constraints.py`,
`interpolate.py`, `variations.py`) and proves or refutes the frozen
claims about it.

Modelling conventions:
* a Python note dict `{midi, time, duration, velocity}` is the
  structure `Note` below; MIDI pitches are `Int` (Python ints),
  the float fields are exact rationals `ℚ`;
* Python `//` and `%` on integers are floor division and the
  nonnegative remainder, which for the positive divisors used by the
  source coincide with Lean's `Int.ediv` / `Int.emod` (written `/`
  and `%` on `ℤ`);
* Python `int(x)` truncates a float toward zero (`pyInt`), and
  Python `round` rounds half to even (`pyRound`);
* Python `float('inf')` cost-matrix entries are `Option ℕ` with
  `none` playing the role of `inf` (all DTW distances are naturals);
* Python `min(list)` returns the first minimal element; `min` with a
  key returns the first element of minimal key (`pyMinBy`);
* `random.random()` / `random.choice` draws are passed in explicitly
  as data (coin streams and choice streams), mirroring the source's
  use of a shared RNG without modelling the generator itself.
-/

/-- Python `int(q)` on an exact value: truncation toward zero. -/
def pyInt (q : ℚ) : Int := if q < 0 then ⌈q⌉ else ⌊q⌋

/-- Python `round(q)` on an exact value: round half to even. -/
def pyRound (q : ℚ) : Int :=
  let f := ⌊q⌋
  if q - f < 1/2 then f
  else if q - f > 1/2 then f + 1
  else if f % 2 = 0 then f else f + 1

/-- Python `min` over a nonempty list of ints (first minimal value). -/
def pyMinList : List Int → Int
  | [] => 0
  | x :: xs => xs.foldl min x

/-- Python `max` over a nonempty list of ints (first maximal value). -/
def pyMaxList : List Int → Int
  | [] => 0
  | x :: xs => xs.foldl max x

/-- Python `min` over a nonempty list of rationals. -/
def pyMinListQ : List ℚ → ℚ
  | [] => 0
  | x :: xs => xs.foldl min x

/-- Python `min(list, key=key)`: first element whose key is minimal. -/
def pyMinBy (key : Int → ℕ) : List Int → Option Int
  | [] => none
  | x :: xs => some (xs.foldl (fun best y => if key y < key best then y else best) x)

/-- A note of a melody: pitch, onset (seconds), duration, velocity. -/
structure Note where
  midi : Int
  time : ℚ
  duration : ℚ
  velocity : ℚ
deriving DecidableEq, Repr

/-- `scale_utils.get_scale_intervals`'s `standard_scales` dict. -/
def standard_scales : List (String × List Int) :=
  [("major", [0, 2, 4, 5, 7, 9, 11]),
   ("minor", [0, 2, 3, 5, 7, 8, 10]),
   ("harmonic minor", [0, 2, 3, 5, 7, 8, 11]),
   ("melodic minor", [0, 2, 3, 5, 7, 9, 11]),
   ("pentatonic", [0, 2, 4, 7, 9]),
   ("minor pentatonic", [0, 3, 5, 7, 10]),
   ("blues", [0, 3, 5, 6, 7, 10]),
   ("chromatic", [0, 1, 2, 3, 4, 5, 6, 7, 8, 9, 10, 11]),
   ("whole tone", [0, 2, 4, 6, 8, 10]),
   ("dorian", [0, 2, 3, 5, 7, 9, 10]),
   ("phrygian", [0, 1, 3, 5, 7, 8, 10]),
   ("lydian", [0, 2, 4, 6, 7, 9, 11]),
   ("mixolydian", [0, 2, 4, 5, 7, 9, 10]),
   ("aeolian", [0, 2, 3, 5, 7, 8, 10]),
   ("locrian", [0, 1, 3, 5, 6, 8, 10]),
   ("phrygian dominant", [0, 1, 4, 5, 7, 8, 10])]

/-- `scale_utils.get_scale_intervals`: dict lookup with "major" as the
default for unknown names. -/
def get_scale_intervals (scale_type : String) : List Int :=
  match standard_scales.find? (fun p => p.1 == scale_type) with
  | some p => p.2
  | none => [0, 2, 4, 5, 7, 9, 11]

/-- The scale configuration a `MusicTransformer` / `MelodyValidator` /
`MelodyInterpolator` instance captures at construction: the resolved
interval list and the root's pitch class. -/
structure ScaleCtx where
  scale_intervals : List Int
  root_pc : Int
deriving DecidableEq, Repr

/-- Constructing an instance from a scale name and a root pitch class
(the source converts the root note name with music21; we take the
resulting pitch class directly). -/
def mkScaleCtx (scale_type : String) (root_pc : Int) : ScaleCtx :=
  ⟨get_scale_intervals scale_type, root_pc⟩

namespace MusicTransformer

/-- `transformations.MusicTransformer.get_scale_degree`: exact-match
scan returning `i + 1`, otherwise index of the closest offset plus 1.
-/
def get_scale_degree (t : ScaleCtx) (midi_note : Int) : ℕ :=
  let interval_from_root := (midi_note % 12 - t.root_pc) % 12
  match t.scale_intervals.findIdx? (· == interval_from_root) with
  | some i => i + 1
  | none =>
    match pyMinBy (fun x => (x - interval_from_root).natAbs) t.scale_intervals with
    | some closest => t.scale_intervals.findIdx (· == closest) + 1
    | none => 0

/-- `transformations.MusicTransformer.find_diatonic_interval`:
semitone delta of moving `interval_steps` scale degrees from
`midi_note`'s degree. -/
def find_diatonic_interval (t : ScaleCtx) (midi_note : Int) (interval_steps : Int) : Int :=
  let current_degree : Int := (get_scale_degree t midi_note : Int) - 1
  let n : Int := t.scale_intervals.length
  let target_degree := (current_degree + interval_steps) % n
  let octave_adjustment := (current_degree + interval_steps) / n
  let current_pos := t.scale_intervals.getD current_degree.toNat 0
  let target_pos := t.scale_intervals.getD target_degree.toNat 0
  target_pos - current_pos + octave_adjustment * 12

/-- `transformations.MusicTransformer.transpose_by_scale_degree`. -/
def transpose_by_scale_degree (t : ScaleCtx) (midi_note : Int) (degree_offset : Int) : Int :=
  midi_note + find_diatonic_interval t midi_note degree_offset

end MusicTransformer

namespace MelodyValidator

/-- `constraints.MelodyValidator._get_scale_degree`: like the
transformer's version but wrapping the index modulo 7 in both
branches. -/
def get_scale_degree (v : ScaleCtx) (midi_note : Int) : ℕ :=
  let interval := (midi_note % 12 - v.root_pc) % 12
  match v.scale_intervals.findIdx? (· == interval) with
  | some i => i % 7 + 1
  | none =>
    match pyMinBy (fun x => (x - interval).natAbs) v.scale_intervals with
    | some closest => (v.scale_intervals.findIdx (· == closest)) % 7 + 1
    | none => 0

end MelodyValidator

namespace MusicTransformer

/-- Axis argument of `invert` (the source takes a string: "center",
"first-note", "last-note", or a literal; a non-digit literal falls
back to the first note's pitch, modelled by `other none`). -/
inductive Axis
  | center
  | firstNote
  | lastNote
  | other (parsed : Option Int)
deriving DecidableEq, Repr

/-- `transformations.MusicTransformer.transpose`. -/
def transpose (notes : List Note) (semitones : Int) : List Note :=
  notes.map (fun n => { n with midi := n.midi + semitones })

/-- `transformations.MusicTransformer.transpose_diatonic`. -/
def transpose_diatonic (t : ScaleCtx) (notes : List Note) (scale_steps : Int) : List Note :=
  notes.map (fun n => { n with midi := transpose_by_scale_degree t n.midi scale_steps })

/-- The axis pitch `invert` computes for a nonempty melody. -/
def axisPitch (notes : List Note) : Axis → Int
  | .center =>
    let lowest := pyMinList (notes.map (·.midi))
    let highest := pyMaxList (notes.map (·.midi))
    (lowest + highest) / 2
  | .firstNote => (notes.headD ⟨0, 0, 0, 0⟩).midi
  | .lastNote => (notes.getLastD ⟨0, 0, 0, 0⟩).midi
  | .other parsed => parsed.getD (notes.headD ⟨0, 0, 0, 0⟩).midi

/-- `transformations.MusicTransformer.invert`: reflect every pitch
across the axis pitch (`new = axis - (old - axis)`). -/
def invert (notes : List Note) (axis : Axis) : List Note :=
  if notes = [] then []
  else
    let axis_pitch := axisPitch notes axis
    notes.map (fun n => { n with midi := axis_pitch - (n.midi - axis_pitch) })

/-- `transformations.MusicTransformer.augment`: stretch times and
durations by `factor` relative to the earliest onset. -/
def augment (notes : List Note) (factor : ℚ) : List Note :=
  if notes = [] then []
  else
    let start_time := pyMinListQ (notes.map (·.time))
    notes.map (fun n =>
      { n with time := start_time + (n.time - start_time) * factor,
               duration := n.duration * factor })

/-- `transformations.MusicTransformer.diminish` (same body as
`augment`, intended for `factor < 1`). -/
def diminish (notes : List Note) (factor : ℚ) : List Note :=
  if notes = [] then []
  else
    let start_time := pyMinListQ (notes.map (·.time))
    notes.map (fun n =>
      { n with time := start_time + (n.time - start_time) * factor,
               duration := n.duration * factor })

/-- `transformations.MusicTransformer.harmonize`'s range clamp:
`while harmony_pitch > 96: -= 12`. -/
def clampHighLoop (p : Int) : Int :=
  if 96 < p then clampHighLoop (p - 12) else p
termination_by (p - 96).toNat
decreasing_by omega

/-- `transformations.MusicTransformer.harmonize`'s range clamp:
`while harmony_pitch < 36: += 12` (runs after the high clamp). -/
def clampLowLoop (p : Int) : Int :=
  if p < 36 then clampLowLoop (p + 12) else p
termination_by (36 - p).toNat
decreasing_by omega

/-- `transformations.MusicTransformer.harmonize`. -/
def harmonize (t : ScaleCtx) (notes : List Note) (interval_degree : Int) : List Note :=
  notes.map (fun n =>
    let harmony_pitch := n.midi + find_diatonic_interval t n.midi interval_degree
    { n with midi := clampLowLoop (clampHighLoop harmony_pitch),
             velocity := n.velocity * (85 / 100) })

/-- Styles of `counter_melody`. -/
inductive CMStyle
  | contrary
  | parallel
  | oblique
  | mixed
deriving DecidableEq, Repr

/-- The counter-melody pitch for the non-mixed styles, for the note at
index `i` of `notes`. -/
def counterPitch (t : ScaleCtx) (notes : List Note) (i : ℕ) (n : Note) : CMStyle → Int
  | .contrary =>
    if 0 < i then
      let prev_motion := n.midi - (notes.getD (i - 1) n).midi
      if 0 < prev_motion then n.midi + find_diatonic_interval t n.midi (-3)
      else if prev_motion < 0 then n.midi + find_diatonic_interval t n.midi 3
      else n.midi + find_diatonic_interval t n.midi (-5)
    else n.midi + find_diatonic_interval t n.midi (-3)
  | .parallel => n.midi + find_diatonic_interval t n.midi (-3)
  | .oblique =>
    if i % 2 = 0 then (notes.headD n).midi
    else n.midi + find_diatonic_interval t n.midi (-5)
  | .mixed => n.midi

/-- The single-step range correction applied to every emitted
counter-melody pitch (`if < 36: += 12 elif > 96: -= 12`). -/
def cmClamp (p : Int) : Int :=
  if p < 36 then p + 12 else if 96 < p then p - 12 else p

/-- One emitted counter-melody note. -/
def cmNote (t : ScaleCtx) (notes : List Note) (style : CMStyle) (i : ℕ) (n : Note) : Note :=
  { n with midi := cmClamp (counterPitch t notes i n style),
           velocity := n.velocity * (8 / 10) }

/-- `counter_melody` for the three non-mixed styles: the plain
`for`-loop over `enumerate(notes)`. -/
def counterNonMixed (t : ScaleCtx) (notes : List Note) (style : CMStyle) : List Note :=
  (notes.enum).map (fun p => cmNote t notes style p.1 p.2)

/-- The `style_temp` the mixed branch computes from the loop index. -/
def mixedStyleTemp (i : ℕ) : CMStyle :=
  if i % 4 = 0 then .contrary else if i % 4 = 1 then .parallel else .oblique

/-- `counter_melody` with `style="mixed"`.  The source's `for` loop
hits the mixed branch already in its first iteration (`i = 0`) and
`return`s there, so each call processes exactly one note with
`style_temp = mixedStyleTemp 0` (= contrary) and recurses on
`notes[1:]` with "mixed". -/
def counterMixed (t : ScaleCtx) : List Note → List Note
  | [] => []
  | n :: rest =>
    (counterNonMixed t [n] (mixedStyleTemp 0)).take 1 ++ counterMixed t rest

/-- `transformations.MusicTransformer.counter_melody`. -/
def counter_melody (t : ScaleCtx) (notes : List Note) (style : CMStyle) : List Note :=
  match style with
  | .mixed => counterMixed t notes
  | s => counterNonMixed t notes s

end MusicTransformer

namespace MusicTransformer

/-- `transformations.MusicTransformer.create_turn`: four equal
subdivisions upper-neighbor / main / lower-neighbor / main. -/
def create_turn (t : ScaleCtx) (n : Note) : List Note :=
  let pitches := [n.midi + find_diatonic_interval t n.midi 1,
                  n.midi,
                  n.midi + find_diatonic_interval t n.midi (-1),
                  n.midi]
  let duration_each := n.duration / 4
  (pitches.enum).map (fun p =>
    { n with midi := p.2,
             time := n.time + p.1 * duration_each,
             duration := duration_each,
             velocity := n.velocity * (if p.1 ≠ 1 then 8 / 10 else 1) })

/-- `transformations.MusicTransformer.create_mordent`. -/
def create_mordent (t : ScaleCtx) (n : Note) : List Note :=
  [{ n with duration := 1 / 10, velocity := n.velocity * (8 / 10) },
   { n with midi := n.midi + find_diatonic_interval t n.midi (-1),
            time := n.time + 1 / 10,
            duration := 1 / 10,
            velocity := n.velocity * (7 / 10) },
   { n with time := n.time + 2 / 10, duration := n.duration - 2 / 10 }]

/-- `transformations.MusicTransformer.create_simple_ending`. -/
def create_simple_ending (n : Note) : List Note :=
  [n,
   { n with midi := n.midi - 2,
            time := n.time + n.duration,
            duration := 2 / 10,
            velocity := n.velocity * (1 / 2) }]

/-- Ornamentation styles. -/
inductive OrnStyle
  | classical
  | jazz
  | baroque
  | minimal
deriving DecidableEq, Repr

/-- `transformations.MusicTransformer.ornament`.  The per-note
Bernoulli draws (`random.random() < p`) are supplied as the outcome
stream `coins`, indexed by the note's position. -/
def ornament (t : ScaleCtx) (notes : List Note) (style : OrnStyle) (coins : ℕ → Bool) : List Note :=
  (notes.enum).flatMap (fun p =>
    let i := p.1
    let n := p.2
    match style with
    | .classical =>
      if 1 / 2 < n.duration ∧ coins i then create_turn t n else [n]
    | .jazz =>
      if coins i ∧ 0 < i then
        [{ n with midi := n.midi - 1,
                  time := n.time - 1 / 10,
                  duration := 1 / 10,
                  velocity := n.velocity * (6 / 10) }, n]
      else [n]
    | .baroque =>
      if 3 / 10 < n.duration ∧ coins i then create_mordent t n else [n]
    | .minimal =>
      if i = notes.length - 1 ∧ 1 < n.duration then create_simple_ending n else [n])

/-- Development methods embedded here (the claims and the batch
generator use only `sequence` and `retrograde`; `fragment` and
`extend` are not needed by any claim). -/
inductive DevMethod
  | sequence
  | retrograde
deriving DecidableEq, Repr

/-- The `sequence` branch of `develop`: the first (up to) 4 notes,
then the pattern diatonically transposed by +2, +4, -1 degree steps,
each repetition delayed by `0.5 * (notes emitted so far)`. -/
def developSequence (t : ScaleCtx) (notes : List Note) : List Note :=
  let pattern := notes.take 4
  ([2, 4, -1] : List Int).foldl
    (fun developed degree_offset =>
      let time_offset : ℚ := (developed.length : ℚ) * (1 / 2)
      developed ++ pattern.map (fun n =>
        { n with midi := transpose_by_scale_degree t n.midi degree_offset,
                 time := n.time + time_offset }))
    pattern

/-- The `retrograde` branch of `develop`: reverse the notes and
reflect each onset across the melody's total duration. -/
def developRetrograde (notes : List Note) : List Note :=
  match notes.getLast? with
  | none => []
  | some last =>
    let total_duration := last.time + last.duration
    notes.reverse.map (fun n =>
      { n with time := total_duration - (n.time + n.duration) })

/-- `transformations.MusicTransformer.develop` (on the embedded
methods; the empty melody returns `[]` in every branch). -/
def develop (t : ScaleCtx) (notes : List Note) (method : DevMethod) : List Note :=
  if notes = [] then []
  else
    match method with
    | .sequence => developSequence t notes
    | .retrograde => developRetrograde notes

end MusicTransformer

namespace MelodyValidator

/-- `constraints.MelodyValidator.check_key_membership`'s pass flag:
at least 90% of the notes' intervals from the root are members of the
scale's offset set. -/
def check_key_membership (v : ScaleCtx) (melody_notes : List Note) : Bool :=
  if melody_notes = [] then false
  else
    let non_scale_count :=
      (melody_notes.filter (fun n =>
        ¬ ((n.midi % 12 - v.root_pc) % 12) ∈ v.scale_intervals)).length
    let in_scale_count := melody_notes.length - non_scale_count
    decide ((90 : ℚ) ≤ (in_scale_count : ℚ) / (melody_notes.length : ℚ) * 100)

/-- The cadence patterns `check_cadence` accepts for the final two
scale degrees. -/
def valid_cadences : List (List ℕ) :=
  [[7, 1], [2, 1], [5, 1], [4, 1], [1, 1]]

/-- `constraints.MelodyValidator.check_cadence`'s pass flag: the last
two notes' scale degrees match a listed pattern, or the final degree
is the tonic. -/
def check_cadence (v : ScaleCtx) (melody_notes : List Note) : Bool :=
  if melody_notes.length < 2 then false
  else
    let cadence_notes :=
      if 4 ≤ melody_notes.length then melody_notes.drop (melody_notes.length - 4)
      else melody_notes.drop (melody_notes.length - 2)
    let scale_degrees := cadence_notes.map (fun n => get_scale_degree v n.midi)
    let last_two := scale_degrees.drop (scale_degrees.length - 2)
    if valid_cadences.contains last_two then true
    else decide (last_two.getLastD 0 = 1)

/-- `constraints.MelodyValidator.check_range`'s pass flag: all
pitches within the reference range (default C3..C6 = 48..84). -/
def check_range (melody_notes : List Note) (reference_range : Option (Int × Int)) : Bool :=
  if melody_notes = [] then false
  else
    let pitches := melody_notes.map (·.midi)
    let min_allowed := (reference_range.getD (48, 84)).1
    let max_allowed := (reference_range.getD (48, 84)).2
    decide (min_allowed ≤ pyMinList pitches ∧ pyMaxList pitches ≤ max_allowed)

/-- `constraints.MelodyValidator.check_rhythm_coherence`'s pass flag:
rest density at most 0.5 and at most 30% of notes shorter than 0.1s.
-/
def check_rhythm_coherence (melody_notes : List Note) : Bool :=
  if melody_notes = [] then false
  else
    let d := (⟨0, 0, 0, 0⟩ : Note)
    let total_time :=
      (melody_notes.getLastD d).time + (melody_notes.getLastD d).duration
        - (melody_notes.headD d).time
    let sounding_time := (melody_notes.map (·.duration)).sum
    let rest_density : ℚ :=
      if 0 < total_time then (total_time - sounding_time) / total_time else 0
    let very_short := (melody_notes.filter (fun n => n.duration < 1 / 10)).length
    let short_note_r : ℚ := (very_short : ℚ) / (melody_notes.length : ℚ)
    decide (rest_density ≤ 1 / 2 ∧ short_note_r ≤ 3 / 10)

/-- The result of `validate_all`: the overall flag plus the per-check
flags that were run (`none` for checks that were toggled off; the
`empty_melody` pseudo-check is present exactly for the empty input).
-/
structure ValidationReport where
  passed : Bool
  empty_melody : Option Bool
  key_membership : Option Bool
  cadence : Option Bool
  range_check : Option Bool
  rhythm_coherence : Option Bool
deriving DecidableEq, Repr

/-- `constraints.MelodyValidator.validate_all`: run the requested
checks (rhythm always runs); overall pass iff every run check passed;
an empty melody fails immediately with the single `empty_melody`
check. -/
def validate_all (v : ScaleCtx) (melody_notes : List Note)
    (check_key : Bool := true) (check_cad : Bool := true) (check_rng : Bool := true)
    (reference_range : Option (Int × Int) := none) : ValidationReport :=
  if melody_notes = [] then
    { passed := false, empty_melody := some false,
      key_membership := none, cadence := none,
      range_check := none, rhythm_coherence := none }
  else
    let key := if check_key then some (check_key_membership v melody_notes) else none
    let cad := if check_cad then some (check_cadence v melody_notes) else none
    let rng := if check_rng then some (check_range melody_notes reference_range) else none
    let rhythm := check_rhythm_coherence melody_notes
    { passed := key.getD true && cad.getD true && rng.getD true && rhythm,
      empty_melody := none,
      key_membership := key, cadence := cad,
      range_check := rng, rhythm_coherence := some rhythm }

end MelodyValidator

/-- A variation record: the payload stands for the `id`/`metadata`
entries the validator never touches; `validation` is the field
`filter_valid_variations` attaches to kept variations. -/
structure Variation (α : Type) where
  payload : α
  notes : List Note
  validation : Option MelodyValidator.ValidationReport
deriving DecidableEq, Repr

namespace MelodyValidator

/-- `constraints.MelodyValidator.filter_valid_variations`: validate
each variation's notes, keep the passing ones, attaching the report.
-/
def filter_valid_variations {α : Type} (v : ScaleCtx)
    (reference_range : Option (Int × Int)) :
    List (Variation α) → List (Variation α)
  | [] => []
  | variation :: rest =>
    let validation := validate_all v variation.notes true true true reference_range
    if validation.passed then
      { variation with validation := some validation }
        :: filter_valid_variations v reference_range rest
    else filter_valid_variations v reference_range rest

end MelodyValidator

namespace MelodyInterpolator

/-- `interpolate.MelodyInterpolator._snap_to_scale`.  The source
first deduplicates the offsets through `set(...)`; every interval
list produced by `get_scale_intervals` is strictly increasing with
values 0..11, for which CPython's small-int set iterates in ascending
order, so `List.dedup` (which keeps the first occurrence of each
value in order) matches the source's candidate order.  `min` then
returns the first offset of minimal distance to the pitch class. -/
def snap_to_scale (ip : ScaleCtx) (midi_note : Int) : Int :=
  let note_class := midi_note % 12
  let octave := midi_note / 12
  let scale_degrees := ip.scale_intervals.dedup
  match pyMinBy (fun x => (x - note_class).natAbs) scale_degrees with
  | none => midi_note
  | some closest_degree =>
    let result := octave * 12 + closest_degree
    if 6 < (result - midi_note).natAbs then
      if result < midi_note then result + 12 else result - 12
    else result

/-- Cost addition where `none` is `float('inf')`. -/
def costAdd (d : ℕ) : Option ℕ → Option ℕ
  | none => none
  | some c => some (d + c)

/-- Minimum of two costs (`none` = `inf`). -/
def costMin : Option ℕ → Option ℕ → Option ℕ
  | none, y => y
  | x, none => x
  | some a, some b => some (min a b)

/-- Strict comparison of two costs (`none` = `inf`). -/
def costLtB : Option ℕ → Option ℕ → Bool
  | some a, some b => a < b
  | some _, none => true
  | none, _ => false

/-- Non-strict comparison of two costs (`none` = `inf`). -/
def costLeB : Option ℕ → Option ℕ → Bool
  | some a, some b => a ≤ b
  | some _, none => true
  | none, some _ => false
  | none, none => true

/-- Python's `<` on index pairs (tuple lexicographic order). -/
def pairLtB (x y : ℕ × ℕ) : Bool :=
  x.1 < y.1 || (x.1 == y.1 && x.2 < y.2)

/-- Python's `<` on `(cost, (i, j))` candidate entries. -/
def entryLtB (x y : Option ℕ × ℕ × ℕ) : Bool :=
  costLtB x.1 y.1 || (x.1 == y.1 && pairLtB x.2 y.2)

/-- Python's `min` over the three backtracking candidates: keeps the
earliest entry among equals. -/
def pyMin3 (e1 e2 e3 : Option ℕ × ℕ × ℕ) : Option ℕ × ℕ × ℕ :=
  let best := if entryLtB e2 e1 then e2 else e1
  if entryLtB e3 best then e3 else best

/-- One row of the DTW cost matrix (`j ≥ 1` part), computed left to
right from the previous row: at column `j`,
`cost = |a_i - b_{j-1}| + min(prev[j], cur[j-1], prev[j-1])`. -/
def dtwRowGo (ai : Int) : Option ℕ → List (Option ℕ) → List Int → Option ℕ → List (Option ℕ)
  | _, _, [], _ => []
  | pPrev, pj :: rest, bj :: bs, cur =>
    let c := costAdd (ai - bj).natAbs (costMin (costMin pj cur) pPrev)
    c :: dtwRowGo ai pj rest bs c
  | _, [], _ :: _, _ => []

/-- Row `i ≥ 1` of the DTW cost matrix from row `i-1`; column 0 is
`inf`. -/
def dtwRow (prev : List (Option ℕ)) (ai : Int) (b : List Int) : List (Option ℕ) :=
  none :: dtwRowGo ai (prev.headD none) (prev.tailD []) b none

/-- Rows `1..n` of the DTW cost matrix. -/
def dtwRows (b : List Int) : List Int → List (Option ℕ) → List (List (Option ℕ))
  | [], _ => []
  | ai :: as', prev =>
    let r := dtwRow prev ai b
    r :: dtwRows b as' r

/-- The full `(n+1) × (m+1)` DTW cost matrix of
`interpolate.MelodyInterpolator._dtw_align`: `cost[0][0] = 0`, the
rest of the border is `inf`, and
`cost[i][j] = |a[i-1] - b[j-1]| + min(insertion, deletion, match)`. -/
def dtwCostMatrix (a b : List Int) : List (List (Option ℕ)) :=
  let row0 : List (Option ℕ) := some 0 :: List.replicate b.length none
  row0 :: dtwRows b a row0

/-- Entry `(i, j)` of the DTW cost matrix (`none` = `inf`). -/
def dtwCostAt (a b : List Int) (i j : ℕ) : Option ℕ :=
  (((dtwCostMatrix a b).getD i []).getD j none)

/-- One backtracking step of `_dtw_align` from cell `(i+1, j+1)`:
Python's `min` over `[(cost[i][j], (i, j)), (cost[i][j+1], (i, j+1)),
(cost[i+1][j], (i+1, j))]`, i.e. the diagonal, up and left
predecessors with their accumulated costs, compared as tuples. -/
def backStep (a b : List Int) (i j : ℕ) : ℕ × ℕ :=
  (pyMin3 (dtwCostAt a b i j, (i, j))
          (dtwCostAt a b i (j + 1), (i, j + 1))
          (dtwCostAt a b (i + 1) j, (i + 1, j))).2

/-- Modelled from the spec's words, for comparison with `backStep`:
"choosing, at each step, the minimum of the diagonal/up/left
predecessors with diagonal preferred on ties, then up, then left". -/
def selectPreferDiag (cd cu cl : Option ℕ) (diag up lft : ℕ × ℕ) : ℕ × ℕ :=
  if costLeB cd cu && costLeB cd cl then diag
  else if costLeB cu cl then up
  else lft

/-- The backtracking loop of `_dtw_align` (`while i > 0 and j > 0`),
with an explicit fuel that the caller sets to `i + j`, an upper bound
on the number of iterations since every step decreases `i + j`. -/
def dtwBacktrack (a b : List Int) : ℕ → ℕ → ℕ → List (ℕ × ℕ)
  | 0, _, _ => []
  | _ + 1, 0, _ => []
  | _ + 1, _ + 1, 0 => []
  | fuel + 1, i + 1, j + 1 =>
    (i, j) :: (let p := backStep a b i j; dtwBacktrack a b fuel p.1 p.2)

/-- `interpolate.MelodyInterpolator._dtw_align`: fill the cost
matrix, backtrack from `(n, m)`, and reverse the collected pairs. -/
def dtw_align (a b : List Int) : List (ℕ × ℕ) :=
  (dtwBacktrack a b (a.length + b.length) a.length b.length).reverse

/-- `interpolate.MelodyInterpolator._interpolate_aligned`: one
interpolated note per aligned index pair; the pitch is the truncated
linear interpolation snapped to the scale, the other fields linear
interpolations. -/
def interpolate_aligned (ip : ScaleCtx) (melody_a melody_b : List Note)
    (alignment : List (ℕ × ℕ)) (t : ℚ) : List Note :=
  alignment.map (fun idx =>
    let note_a := melody_a.getD idx.1 ⟨0, 0, 0, 0⟩
    let note_b := melody_b.getD idx.2 ⟨0, 0, 0, 0⟩
    { midi := snap_to_scale ip (pyInt ((1 - t) * note_a.midi + t * note_b.midi)),
      time := (1 - t) * note_a.time + t * note_b.time,
      duration := (1 - t) * note_a.duration + t * note_b.duration,
      velocity := (1 - t) * note_a.velocity + t * note_b.velocity })

/-- `interpolate.MelodyInterpolator.dtw_interpolate`: melody A, the
`steps` intermediate melodies at `t = step/(steps+1)`, melody B. -/
def dtw_interpolate (ip : ScaleCtx) (melody_a melody_b : List Note)
    (steps : ℕ) : List (List Note) :=
  if melody_a = [] ∨ melody_b = [] then []
  else
    let alignment := dtw_align (melody_a.map (·.midi)) (melody_b.map (·.midi))
    [melody_a] ++
      (List.range steps).map (fun (s : ℕ) =>
        interpolate_aligned ip melody_a melody_b alignment
          (((s : ℚ) + 1) / ((steps : ℚ) + 1))) ++
      [melody_b]

end MelodyInterpolator

namespace MelodyInterpolator

/-- `interpolate.MelodyInterpolator._normalize_contour`: min-max
scale a pitch sequence into [0,1]; a constant sequence maps to all
0.5. -/
def normalize_contour (pitches : List Int) : List ℚ :=
  if pitches = [] then []
  else
    let min_pitch := pyMinList pitches
    let max_pitch := pyMaxList pitches
    if max_pitch = min_pitch then List.replicate pitches.length (1 / 2)
    else pitches.map (fun p => ((p - min_pitch : Int) : ℚ) / ((max_pitch - min_pitch : Int) : ℚ))

/-- `np.linspace(0, stop, num)` over exact rationals. -/
def linspace (stop : ℚ) (num : ℕ) : List ℚ :=
  match num with
  | 0 => []
  | 1 => [0]
  | n + 2 => (List.range (n + 2)).map (fun k => stop * k / (n + 1))

/-- `interpolate.MelodyInterpolator._resample_contour`: piecewise
linear resampling over fractional index positions. -/
def resample_contour (contour : List ℚ) (target_length : ℕ) : List ℚ :=
  if contour.length = target_length then contour
  else if contour.length = 0 then List.replicate target_length (1 / 2)
  else
    (linspace ((contour.length : ℚ) - 1) target_length).map (fun idx =>
      let low := ⌊idx⌋.toNat
      let high := min ⌈idx⌉.toNat (contour.length - 1)
      let frac : ℚ := idx - (⌊idx⌋ : ℤ)
      if low = high then contour.getD low 0
      else (1 - frac) * contour.getD low 0 + frac * contour.getD high 0)

/-- `interpolate.MelodyInterpolator._contour_to_melody`: map blended
contour values into the blended pitch range, snap, and take timing
from the sources at `min(i, len-1)`. -/
def contour_to_melody (ip : ScaleCtx) (contour : List ℚ)
    (melody_a melody_b : List Note) (t : ℚ) : List Note :=
  let d := (⟨0, 0, 0, 0⟩ : Note)
  let range_a := (pyMinList (melody_a.map (·.midi)), pyMaxList (melody_a.map (·.midi)))
  let range_b := (pyMinList (melody_b.map (·.midi)), pyMaxList (melody_b.map (·.midi)))
  let min_pitch := pyInt ((1 - t) * range_a.1 + t * range_b.1)
  let max_pitch := pyInt ((1 - t) * range_a.2 + t * range_b.2)
  (contour.enum).map (fun p =>
    let i := p.1
    let c := p.2
    let pitch := pyInt ((min_pitch : ℚ) + c * ((max_pitch - min_pitch : Int) : ℚ))
    let idx_a := min i (melody_a.length - 1)
    let idx_b := min i (melody_b.length - 1)
    { midi := snap_to_scale ip pitch,
      time := (1 - t) * (melody_a.getD idx_a d).time + t * (melody_b.getD idx_b d).time,
      duration := (1 - t) * (melody_a.getD idx_a d).duration
                    + t * (melody_b.getD idx_b d).duration,
      velocity := 7 / 10 })

/-- `interpolate.MelodyInterpolator.contour_interpolate`. -/
def contour_interpolate (ip : ScaleCtx) (melody_a melody_b : List Note)
    (steps : ℕ) : List (List Note) :=
  if melody_a = [] ∨ melody_b = [] then []
  else
    let contour_a := normalize_contour (melody_a.map (·.midi))
    let contour_b := normalize_contour (melody_b.map (·.midi))
    let max_len := max contour_a.length contour_b.length
    let ca := resample_contour contour_a max_len
    let cb := resample_contour contour_b max_len
    [melody_a] ++
      (List.range steps).map (fun (s : ℕ) =>
        let t : ℚ := ((s : ℚ) + 1) / ((steps : ℚ) + 1)
        let interp_contour := ca.zipWith (fun a b => (1 - t) * a + t * b) cb
        contour_to_melody ip interp_contour melody_a melody_b t) ++
      [melody_b]

/-- The four scalar features `_extract_features` computes. -/
structure Features where
  mean_pitch : ℚ
  pitch_variance : ℚ
  rhythm_density : ℚ
  stepFrac : ℚ
deriving DecidableEq, Repr

/-- `interpolate.MelodyInterpolator._extract_features` (the step/leap
field is the fraction of consecutive absolute intervals ≤ 2, or 0.5
when there are no intervals). -/
def extract_features (melody : List Note) : Features :=
  let d := (⟨0, 0, 0, 0⟩ : Note)
  let pitches : List Int := melody.map (·.midi)
  let n : ℚ := (melody.length : ℚ)
  let mean_pitch := ((pitches.map (fun p => (p : ℚ))).sum) / n
  let pitch_variance :=
    ((pitches.map (fun p => ((p : ℚ) - mean_pitch) ^ 2)).sum) / n
  let total_duration :=
    (melody.getLastD d).time + (melody.getLastD d).duration - (melody.headD d).time
  let rhythm_density := if 0 < total_duration then n / total_duration else 0
  let intervals := (pitches.zip (pitches.tailD [])).map (fun p => (p.2 - p.1).natAbs)
  let step_count := (intervals.filter (fun i => i ≤ 2)).length
  let stepFrac : ℚ :=
    if intervals = [] then 1 / 2 else (step_count : ℚ) / (intervals.length : ℚ)
  { mean_pitch := mean_pitch, pitch_variance := pitch_variance,
    rhythm_density := rhythm_density, stepFrac := stepFrac }

/-- The notes `_synthesize_from_features` emits when the placement
division is defined. -/
def synthCore (ip : ScaleCtx) (target : Features) (melody_a melody_b : List Note)
    (t : ℚ) (length : ℕ) : List Note :=
  let d := (⟨0, 0, 0, 0⟩ : Note)
  (List.range length).map (fun i =>
    let idx_a := min (pyInt ((i : ℚ) * (melody_a.length : ℚ) / (length : ℚ))).toNat
                     (melody_a.length - 1)
    let idx_b := min (pyInt ((i : ℚ) * (melody_b.length : ℚ) / (length : ℚ))).toNat
                     (melody_b.length - 1)
    let pitch := pyInt ((1 - t) * (melody_a.getD idx_a d).midi
                          + t * (melody_b.getD idx_b d).midi)
    let pitch := pyInt ((pitch : ℚ) + (target.mean_pitch - (pitch : ℚ)) * (3 / 10))
    { midi := snap_to_scale ip pitch,
      time := (i : ℚ) / target.rhythm_density,
      duration := 1 / 2,
      velocity := 7 / 10 })

/-- `interpolate.MelodyInterpolator._synthesize_from_features`.
When the blended rhythm density is zero and at least one note is to
be placed, the source raises `ZeroDivisionError` at `i / density`;
that outcome is `none`. -/
def synthesize_from_features (ip : ScaleCtx) (target : Features)
    (melody_a melody_b : List Note) (t : ℚ) : Option (List Note) :=
  let length := (pyInt ((1 - t) * (melody_a.length : ℚ)
                          + t * (melody_b.length : ℚ))).toNat
  if length ≠ 0 ∧ target.rhythm_density = 0 then none
  else some (synthCore ip target melody_a melody_b t length)

/-- `List.mapM` over `Option`, written as plain recursion so that it
unfolds definitionally. -/
def optMapList {α β : Type} (f : α → Option β) : List α → Option (List β)
  | [] => some []
  | x :: xs =>
    match f x with
    | none => none
    | some y =>
      match optMapList f xs with
      | none => none
      | some ys => some (y :: ys)

/-- The blended feature target at factor `t`. -/
def blendFeatures (fa fb : Features) (t : ℚ) : Features :=
  { mean_pitch := (1 - t) * fa.mean_pitch + t * fb.mean_pitch,
    pitch_variance := (1 - t) * fa.pitch_variance + t * fb.pitch_variance,
    rhythm_density := (1 - t) * fa.rhythm_density + t * fb.rhythm_density,
    stepFrac := (1 - t) * fa.stepFrac + t * fb.stepFrac }

/-- `interpolate.MelodyInterpolator.feature_interpolate`; `none`
models the run raising `ZeroDivisionError` inside a synthesis step.
-/
def feature_interpolate (ip : ScaleCtx) (melody_a melody_b : List Note)
    (steps : ℕ) : Option (List (List Note)) :=
  if melody_a = [] ∨ melody_b = [] then some []
  else
    let fa := extract_features melody_a
    let fb := extract_features melody_b
    match optMapList (fun (s : ℕ) =>
        let t : ℚ := ((s : ℚ) + 1) / ((steps : ℚ) + 1)
        synthesize_from_features ip (blendFeatures fa fb t) melody_a melody_b t)
        (List.range steps) with
    | none => none
    | some mids => some ([melody_a] ++ mids ++ [melody_b])

end MelodyInterpolator

namespace VariationGenerator

/-- One random draw of `generate_batch`: the chosen variation type
together with the random parameters that type consumes (`random.randint`
/ `random.choice` results, and coin streams for the ornament styles).
The `fallback` constructor is the `else` branch for unknown type
names. -/
inductive VarChoice
  | transpose_up (semitones : Int)
  | transpose_down (semitones : Int)
  | transpose_diatonic_up (steps : Int)
  | transpose_diatonic_down (steps : Int)
  | invert_center
  | invert_first
  | invert_last
  | augmentBy (factor : ℚ)
  | diminishBy (factor : ℚ)
  | ornament_classical (coins : ℕ → Bool)
  | ornament_jazz (coins : ℕ → Bool)
  | develop_sequence
  | develop_retrograde
  | harmonize_third
  | harmonize_fifth
  | counter_contrary
  | counter_parallel
  | fallback (semitones : Int)

open MusicTransformer in
/-- The notes produced by one iteration of `generate_batch`'s
dispatch on the drawn variation type. -/
def applyChoice (t : ScaleCtx) (seed_notes : List Note) : VarChoice → List Note
  | .transpose_up s => transpose seed_notes s
  | .transpose_down s => transpose seed_notes s
  | .transpose_diatonic_up st => transpose_diatonic t seed_notes st
  | .transpose_diatonic_down st => transpose_diatonic t seed_notes st
  | .invert_center => invert seed_notes .center
  | .invert_first => invert seed_notes .firstNote
  | .invert_last => invert seed_notes .lastNote
  | .augmentBy f => augment seed_notes f
  | .diminishBy f => diminish seed_notes f
  | .ornament_classical coins => ornament t seed_notes .classical coins
  | .ornament_jazz coins => ornament t seed_notes .jazz coins
  | .develop_sequence => develop t seed_notes .sequence
  | .develop_retrograde => develop t seed_notes .retrograde
  | .harmonize_third => harmonize t seed_notes 3
  | .harmonize_fifth => harmonize t seed_notes 5
  | .counter_contrary => counter_melody t seed_notes .contrary
  | .counter_parallel => counter_melody t seed_notes .parallel
  | .fallback s => transpose seed_notes s

/-- `variations.VariationGenerator.generate_batch`: empty seeds yield
no variations; otherwise one variation per draw, carrying the
produced notes (the payload stands for the `id`/`metadata` fields;
we record the iteration index).  The RNG is modelled by the stream
`choices` of drawn types and parameters. -/
def generate_batch (t : ScaleCtx) (seed_notes : List Note) (count : ℕ)
    (choices : ℕ → VarChoice) : List (Variation ℕ) :=
  if seed_notes = [] then []
  else
    (List.range count).map (fun i =>
      { payload := i,
        notes := applyChoice t seed_notes (choices i),
        validation := none })

end VariationGenerator

/-! ## General helper lemmas -/

theorem pyMinBy_foldl_mem (key : Int → ℕ) (xs : List Int) (x : Int) :
    xs.foldl (fun best y => if key y < key best then y else best) x ∈ x :: xs := by
  induction xs generalizing x with
  | nil => simp
  | cons y ys ih =>
    simp only [List.foldl_cons]
    by_cases hk : key y < key x
    · rw [if_pos hk]
      rcases List.mem_cons.mp (ih y) with h | h
      · simp [h]
      · simp [List.mem_cons, h]
    · rw [if_neg hk]
      rcases List.mem_cons.mp (ih x) with h | h
      · simp [h]
      · simp [List.mem_cons, h]

theorem pyMinBy_mem {key : Int → ℕ} {l : List Int} {c : Int}
    (h : pyMinBy key l = some c) : c ∈ l := by
  cases l with
  | nil => simp [pyMinBy] at h
  | cons x xs =>
    simp only [pyMinBy, Option.some.injEq] at h
    subst h
    exact pyMinBy_foldl_mem key xs x

theorem pyMinBy_eq_none {key : Int → ℕ} {l : List Int} :
    pyMinBy key l = none ↔ l = [] := by
  cases l <;> simp [pyMinBy]

theorem findIdx?_some_lt {α : Type} {p : α → Bool} {l : List α} {i : ℕ}
    (h : l.findIdx? p = some i) : i < l.length := by
  induction l generalizing i with
  | nil => simp [List.findIdx?] at h
  | cons a tl ih =>
    rw [List.findIdx?_cons] at h
    by_cases hp : p a
    · simp [hp] at h
      simp only [List.length_cons]
      omega
    · rw [if_neg hp, List.findIdx?_succ] at h
      rcases Option.map_eq_some'.mp h with ⟨j, hj, rfl⟩
      have := ih hj
      simp only [List.length_cons]
      omega

theorem findIdx?_of_getElem {l : List Int} {i : ℕ} {x : Int}
    (hnd : l.Nodup) (h : l[i]? = some x) : l.findIdx? (· == x) = some i := by
  induction l generalizing i with
  | nil => simp at h
  | cons a tl ih =>
    cases i with
    | zero =>
      simp at h
      subst h
      rw [List.findIdx?_cons]
      simp
    | succ i =>
      simp only [List.getElem?_cons_succ] at h
      have hx : x ∈ tl := by
        obtain ⟨hlt, heq⟩ := List.getElem?_eq_some.mp h
        exact heq ▸ List.getElem_mem hlt
      have ha : a ∉ tl := (List.nodup_cons.mp hnd).1
      have hne : (a == x) = false := by
        simp only [beq_eq_false_iff_ne, ne_eq]
        rintro rfl
        exact ha hx
      rw [List.findIdx?_cons, if_neg (by simp [hne]), List.findIdx?_succ,
        ih (List.nodup_cons.mp hnd).2 h]
      rfl

theorem get_scale_intervals_mem (s : String) :
    get_scale_intervals s ∈ standard_scales.map Prod.snd := by
  unfold get_scale_intervals
  cases h : standard_scales.find? (fun p => p.1 == s) with
  | none => decide
  | some p => exact List.mem_map_of_mem _ (List.mem_of_find?_eq_some h)

theorem scale_values_props :
    ∀ l ∈ standard_scales.map Prod.snd, l ≠ [] ∧ l.Nodup := by decide

theorem get_scale_intervals_ne_nil (s : String) : get_scale_intervals s ≠ [] :=
  (scale_values_props _ (get_scale_intervals_mem s)).1

theorem get_scale_intervals_nodup (s : String) : (get_scale_intervals s).Nodup :=
  (scale_values_props _ (get_scale_intervals_mem s)).2

/-! ## Scale-degree lemmas (claim C1) -/

theorem validator_degree_range (v : ScaleCtx) (h : v.scale_intervals ≠ [])
    (midi : Int) :
    1 ≤ MelodyValidator.get_scale_degree v midi ∧
      MelodyValidator.get_scale_degree v midi ≤ 7 := by
  simp only [MelodyValidator.get_scale_degree]
  split
  · omega
  · split
    · omega
    · next heq => exact absurd (pyMinBy_eq_none.mp heq) h

theorem transformer_degree_range (t : ScaleCtx) (h : t.scale_intervals ≠ [])
    (midi : Int) :
    1 ≤ MusicTransformer.get_scale_degree t midi ∧
      MusicTransformer.get_scale_degree t midi ≤ t.scale_intervals.length := by
  simp only [MusicTransformer.get_scale_degree]
  split
  · next i hf => have := findIdx?_some_lt hf; omega
  · split
    · next c hc =>
      have hmem := pyMinBy_mem hc
      have : t.scale_intervals.findIdx (· == c) < t.scale_intervals.length :=
        List.findIdx_lt_length.mpr ⟨c, hmem, by simp⟩
      omega
    · next heq => exact absurd (pyMinBy_eq_none.mp heq) h

theorem degree_exact_match (ctx : ScaleCtx) (hnd : ctx.scale_intervals.Nodup)
    {midi : Int} {i : ℕ}
    (h : ctx.scale_intervals[i]? = some ((midi % 12 - ctx.root_pc) % 12)) :
    MelodyValidator.get_scale_degree ctx midi = i % 7 + 1 ∧
      MusicTransformer.get_scale_degree ctx midi = i + 1 := by
  have hf := findIdx?_of_getElem hnd h
  constructor
  · simp only [MelodyValidator.get_scale_degree]
    rw [hf]
  · simp only [MusicTransformer.get_scale_degree]
    rw [hf]

/-- C1: for every scale name, root and pitch, the validator's
`_get_scale_degree` is in `[1,7]`, and an exact offset match at list
index `i` yields degree `(i mod 7) + 1` there; the transformer's
`get_scale_degree`, however, returns `i + 1` bounded only by the
number of offsets, so it stays within `[1,7]` exactly for scales with
at most 7 offsets (all scales except chromatic with 12). -/
theorem C1_scale_degree (name : String) (root midi : Int) (i : ℕ) :
    (1 ≤ MelodyValidator.get_scale_degree (mkScaleCtx name root) midi ∧
      MelodyValidator.get_scale_degree (mkScaleCtx name root) midi ≤ 7) ∧
    (1 ≤ MusicTransformer.get_scale_degree (mkScaleCtx name root) midi ∧
      MusicTransformer.get_scale_degree (mkScaleCtx name root) midi ≤
        (get_scale_intervals name).length) ∧
    ((get_scale_intervals name)[i]? = some ((midi % 12 - root) % 12) →
      MelodyValidator.get_scale_degree (mkScaleCtx name root) midi = i % 7 + 1 ∧
      MusicTransformer.get_scale_degree (mkScaleCtx name root) midi = i + 1) ∧
    ((get_scale_intervals name).length ≤ 7 →
      1 ≤ MusicTransformer.get_scale_degree (mkScaleCtx name root) midi ∧
        MusicTransformer.get_scale_degree (mkScaleCtx name root) midi ≤ 7) := by
  have hne : (mkScaleCtx name root).scale_intervals ≠ [] :=
    get_scale_intervals_ne_nil name
  have hnd : (mkScaleCtx name root).scale_intervals.Nodup :=
    get_scale_intervals_nodup name
  have htr := transformer_degree_range (mkScaleCtx name root) hne midi
  refine ⟨validator_degree_range (mkScaleCtx name root) hne midi, htr, ?_, ?_⟩
  · exact fun h => degree_exact_match (mkScaleCtx name root) hnd h
  · exact fun h => ⟨htr.1, le_trans htr.2 h⟩

/-- C1 witness: for C major, root pitch class 0, pitch 64 (E4) the
interval from the root, 4, sits at list index 2, and both functions
report degree 3. -/
theorem C1_scale_degree_witness :
    (get_scale_intervals "major")[2]? = some (((64 : Int) % 12 - 0) % 12) ∧
    (MelodyValidator.get_scale_degree (mkScaleCtx "major" 0) 64 = 2 % 7 + 1 ∧
      MusicTransformer.get_scale_degree (mkScaleCtx "major" 0) 64 = 2 + 1) :=
  ⟨by decide, (C1_scale_degree "major" 0 64 2).2.2.1 (by decide)⟩

/-- C1 counterexample: on the chromatic scale with root C, pitch 71
(interval 11, list index 11) makes the transformer's
`get_scale_degree` return 12, outside the claimed range `[1,7]`. -/
theorem C1_transformer_degree_out_of_range :
    MusicTransformer.get_scale_degree (mkScaleCtx "chromatic" 0) 71 = 12 ∧
      ¬ (1 ≤ MusicTransformer.get_scale_degree (mkScaleCtx "chromatic" 0) 71 ∧
          MusicTransformer.get_scale_degree (mkScaleCtx "chromatic" 0) 71 ≤ 7) := by
  decide

/-! ## Claim C10: empty seed melody -/

/-- C10: `generate_batch` on an empty seed melody returns the empty
list, for every count and every outcome of the random draws. -/
theorem C10_generate_batch_empty_seed (t : ScaleCtx) (count : ℕ)
    (choices : ℕ → VariationGenerator.VarChoice) :
    VariationGenerator.generate_batch t [] count choices = [] := by
  simp [VariationGenerator.generate_batch]

/-! ## Claim C2: double inversion around the center axis -/

theorem foldl_min_reflect (c : Int) (xs : List Int) (x : Int) :
    (xs.map (fun m => c - m)).foldl min (c - x) = c - xs.foldl max x := by
  induction xs generalizing x with
  | nil => simp
  | cons y ys ih =>
    simp only [List.map_cons, List.foldl_cons, min_sub_sub_left]
    exact ih (max x y)

theorem foldl_max_reflect (c : Int) (xs : List Int) (x : Int) :
    (xs.map (fun m => c - m)).foldl max (c - x) = c - xs.foldl min x := by
  induction xs generalizing x with
  | nil => simp
  | cons y ys ih =>
    simp only [List.map_cons, List.foldl_cons, max_sub_sub_left]
    exact ih (min x y)

theorem pyMinList_reflect (c : Int) (x : Int) (xs : List Int) :
    pyMinList ((x :: xs).map (fun m => c - m)) = c - pyMaxList (x :: xs) := by
  simp only [List.map_cons, pyMinList, pyMaxList]
  exact foldl_min_reflect c xs x

theorem pyMaxList_reflect (c : Int) (x : Int) (xs : List Int) :
    pyMaxList ((x :: xs).map (fun m => c - m)) = c - pyMinList (x :: xs) := by
  simp only [List.map_cons, pyMinList, pyMaxList]
  exact foldl_max_reflect c xs x

/-- The midi sequence of `invert notes center` is the reflection of
the original midi sequence across the computed axis. -/
theorem invert_center_midi (n0 : Note) (rest : List Note) :
    (MusicTransformer.invert (n0 :: rest) .center).map (·.midi) =
      ((n0 :: rest).map (·.midi)).map
        (fun m => MusicTransformer.axisPitch (n0 :: rest) .center
                    - (m - MusicTransformer.axisPitch (n0 :: rest) .center)) := by
  simp [MusicTransformer.invert, List.map_map, Function.comp]

/-- C2 (amended): double inversion around the "center" axis restores
every pitch exactly whenever the sum of the melody's lowest and
highest pitches is even (in particular for constant melodies); the
counterexample shows the odd case shifts every pitch down by 2. -/
theorem C2_invert_center_involution (n0 : Note) (rest : List Note)
    (h : (pyMinList ((n0 :: rest).map (·.midi))
            + pyMaxList ((n0 :: rest).map (·.midi))) % 2 = 0) :
    MusicTransformer.invert (MusicTransformer.invert (n0 :: rest) .center) .center
      = n0 :: rest := by
  set lo := pyMinList ((n0 :: rest).map (·.midi)) with hlo
  set hi := pyMaxList ((n0 :: rest).map (·.midi)) with hhi
  set a := MusicTransformer.axisPitch (n0 :: rest) .center with ha
  have ha2 : 2 * a = lo + hi := by
    have := Int.ediv_add_emod (lo + hi) 2
    rw [h, add_zero] at this
    rw [ha, MusicTransformer.axisPitch, ← hlo, ← hhi]
    omega
  have hne : (n0 :: rest) ≠ ([] : List Note) := by simp
  have hinv1 : MusicTransformer.invert (n0 :: rest) .center
      = (n0 :: rest).map (fun n => { n with midi := a - (n.midi - a) }) := by
    rw [MusicTransformer.invert, if_neg hne, ← ha]
  have hmap : MusicTransformer.invert (n0 :: rest) .center
      = { n0 with midi := a - (n0.midi - a) }
          :: rest.map (fun n => { n with midi := a - (n.midi - a) }) := by
    rw [hinv1, List.map_cons]
  -- the axis of the inverted melody equals the original axis
  have hmid1 : (MusicTransformer.invert (n0 :: rest) .center).map (·.midi)
      = ((n0 :: rest).map (·.midi)).map (fun m => a - (m - a)) := by
    exact invert_center_midi n0 rest
  have hmid1' : (MusicTransformer.invert (n0 :: rest) .center).map (·.midi)
      = (n0.midi :: rest.map (·.midi)).map (fun m => 2 * a - m) := by
    rw [hmid1]
    simp only [List.map_cons]
    congr 1
    · omega
    · rw [List.map_map, List.map_map]
      apply List.map_congr_left
      intro m _
      simp only [Function.comp_apply]
      omega
  have haxis2 : MusicTransformer.axisPitch
      (MusicTransformer.invert (n0 :: rest) .center) .center = a := by
    rw [MusicTransformer.axisPitch]
    have hlo2 : pyMinList ((MusicTransformer.invert (n0 :: rest) .center).map (·.midi))
        = 2 * a - hi := by
      rw [hmid1']
      rw [pyMinList_reflect]
      rw [hhi]
      rfl
    have hhi2 : pyMaxList ((MusicTransformer.invert (n0 :: rest) .center).map (·.midi))
        = 2 * a - lo := by
      rw [hmid1']
      rw [pyMaxList_reflect]
      rw [hlo]
      rfl
    rw [hlo2, hhi2]
    omega
  have hne2 : MusicTransformer.invert (n0 :: rest) .center ≠ [] := by
    rw [hmap]; simp
  rw [MusicTransformer.invert, if_neg hne2, haxis2, hinv1, List.map_map]
  have : ((fun n => { n with midi := a - (n.midi - a) })
      ∘ (fun n => { n with midi := a - (n.midi - a) })) = fun (n : Note) => n := by
    funext n
    simp only [Function.comp_apply]
    have : a - (a - (n.midi - a) - a) = n.midi := by omega
    rw [this]
  rw [this]
  simp

/-- C2 witness: a concrete two-note melody with even `lo + hi`
round-trips exactly. -/
theorem C2_invert_center_involution_witness :
    ((pyMinList (([⟨60, 0, 1, 1⟩, ⟨64, 1, 1, 1⟩] : List Note).map (·.midi))
        + pyMaxList (([⟨60, 0, 1, 1⟩, ⟨64, 1, 1, 1⟩] : List Note).map (·.midi))) % 2 = 0) ∧
    MusicTransformer.invert
        (MusicTransformer.invert [⟨60, 0, 1, 1⟩, ⟨64, 1, 1, 1⟩] .center) .center
      = [⟨60, 0, 1, 1⟩, ⟨64, 1, 1, 1⟩] :=
  ⟨by decide, C2_invert_center_involution ⟨60, 0, 1, 1⟩ [⟨64, 1, 1, 1⟩] (by decide)⟩

/-- C2 counterexample: pitches 60 and 61 have odd `lo + hi`, the
floored axis drops half a semitone, and the double inversion lands on
58 and 59 instead of 60 and 61. -/
theorem C2_invert_center_not_involution :
    (MusicTransformer.invert
        (MusicTransformer.invert [⟨60, 0, 1, 1⟩, ⟨61, 1, 1, 1⟩] .center) .center).map (·.midi)
      = [58, 59] ∧
    ¬ (MusicTransformer.invert
        (MusicTransformer.invert [⟨60, 0, 1, 1⟩, ⟨61, 1, 1, 1⟩] .center) .center).map (·.midi)
      = ([⟨60, 0, 1, 1⟩, ⟨61, 1, 1, 1⟩] : List Note).map (·.midi) := by
  decide

/-! ## Claim C3: double retrograde -/

theorem developRetrograde_eq {notes : List Note} {L : Note}
    (hL : notes.getLast? = some L) :
    MusicTransformer.developRetrograde notes =
      notes.reverse.map (fun n =>
        { n with time := L.time + L.duration - (n.time + n.duration) }) := by
  unfold MusicTransformer.developRetrograde
  rw [hL]

/-- C3 (amended): applying `develop(retrograde)` twice restores every
note (in particular every onset) exactly, provided the melody starts
at onset 0; in general the composite shifts all onsets by minus the
first note's onset (see the counterexample). -/
theorem C3_retrograde_involution (n0 : Note) (rest : List Note) (h : n0.time = 0) :
    MusicTransformer.developRetrograde
      (MusicTransformer.developRetrograde (n0 :: rest)) = n0 :: rest := by
  obtain ⟨L, hL⟩ : ∃ L, (n0 :: rest).getLast? = some L :=
    ⟨(n0 :: rest).getLast (by simp), List.getLast?_eq_getLast _ (by simp)⟩
  have h1 := developRetrograde_eq hL
  have hLast1 : (MusicTransformer.developRetrograde (n0 :: rest)).getLast?
      = some { n0 with time := L.time + L.duration - (n0.time + n0.duration) } := by
    rw [h1, List.reverse_cons, List.map_append, List.map_cons, List.map_nil]
    exact List.getLast?_concat _
  have h2 := developRetrograde_eq hLast1
  rw [h2, h1]
  rw [← List.map_reverse, List.reverse_reverse, List.map_map]
  have hfun : ∀ n : Note,
      ((fun n : Note =>
          { n with time := ({ n0 with time := L.time + L.duration - (n0.time + n0.duration) }.time
              + { n0 with time := L.time + L.duration - (n0.time + n0.duration) }.duration)
              - (n.time + n.duration) })
        ∘ (fun n : Note => { n with time := L.time + L.duration - (n.time + n.duration) })) n
        = n := by
    intro n
    simp only [Function.comp_apply]
    have : L.time + L.duration - (n0.time + n0.duration) + n0.duration
        - (L.time + L.duration - (n.time + n.duration) + n.duration) = n.time := by
      rw [h]; ring
    rw [this]
  calc ((n0 :: rest).map _) = (n0 :: rest).map (fun n => n) :=
        List.map_congr_left (fun n _ => hfun n)
    _ = n0 :: rest := by simp

/-- C3 witness: a two-note melody starting at onset 0 round-trips
exactly under double retrograde. -/
theorem C3_retrograde_involution_witness :
    (⟨60, 0, 1, 1⟩ : Note).time = 0 ∧
    MusicTransformer.developRetrograde
        (MusicTransformer.developRetrograde [⟨60, 0, 1, 1⟩, ⟨64, 1, 1, 1⟩])
      = [⟨60, 0, 1, 1⟩, ⟨64, 1, 1, 1⟩] :=
  ⟨rfl, C3_retrograde_involution ⟨60, 0, 1, 1⟩ [⟨64, 1, 1, 1⟩] rfl⟩

/-- C3 counterexample: a single note with onset 1 and duration 1 has
total duration 2; one retrograde moves it to onset 0 and the second
leaves it at onset 0 ≠ 1, so the claimed involution fails whenever
the melody does not start at onset 0 (the onset error is exactly the
first onset, far beyond floating tolerance). -/
theorem C3_retrograde_not_involution :
    (MusicTransformer.developRetrograde (MusicTransformer.developRetrograde
        [⟨60, 1, 1, 1⟩])).map (·.time) = [0] ∧
    (MusicTransformer.developRetrograde (MusicTransformer.developRetrograde
        [⟨60, 1, 1, 1⟩])).map (·.time)
      ≠ ([⟨60, 1, 1, 1⟩] : List Note).map (·.time) := by
  constructor
  · norm_num [MusicTransformer.developRetrograde]
  · norm_num [MusicTransformer.developRetrograde]

/-! ## Claim C8: the "mixed" counter-melody style -/

/-- C8: evaluating `counter_melody` with style "mixed" on the C-major
melody 60, 62, 64, 65.  Because the source's `for` loop `return`s
during its very first iteration (`i = 0`), every note is processed by
the `i % 4 == 0` branch (contrary motion on a one-note melody, i.e. a
diatonic third below); the pitch at index 2 is 59, not the oblique
pedal tone 60 that the claimed `i % 4` partition (applying oblique
motion at indices 2 and 3) would produce there. -/
theorem C8_counter_melody_mixed_dispatch :
    (MusicTransformer.counter_melody (mkScaleCtx "major" 0)
        [⟨60, 0, 1, 1⟩, ⟨62, 1, 1, 1⟩, ⟨64, 2, 1, 1⟩, ⟨65, 3, 1, 1⟩]
        .mixed).map (·.midi) = [55, 57, 59, 60] ∧
    ((MusicTransformer.counter_melody (mkScaleCtx "major" 0)
        [⟨60, 0, 1, 1⟩, ⟨62, 1, 1, 1⟩, ⟨64, 2, 1, 1⟩, ⟨65, 3, 1, 1⟩]
        .oblique).map (·.midi))[2]? = some 60 ∧
    ((MusicTransformer.counter_melody (mkScaleCtx "major" 0)
        [⟨60, 0, 1, 1⟩, ⟨62, 1, 1, 1⟩, ⟨64, 2, 1, 1⟩, ⟨65, 3, 1, 1⟩]
        .mixed).map (·.midi))[2]? ≠ some 60 := by
  decide

/-! ## Claim C9: filtering variations -/

/-- C9: `filter_valid_variations` returns exactly the variations
whose `validate_all` report passes, in order, each identical to its
input except for the attached `validation` field (payload and notes
untouched). -/
theorem C9_filter_valid_variations {α : Type} (v : ScaleCtx)
    (rr : Option (Int × Int)) (vars : List (Variation α)) :
    MelodyValidator.filter_valid_variations v rr vars =
      (vars.filter
          (fun w => (MelodyValidator.validate_all v w.notes true true true rr).passed)).map
        (fun w =>
          { w with
            validation := some (MelodyValidator.validate_all v w.notes true true true rr) }) := by
  induction vars with
  | nil => rfl
  | cons w ws ih =>
    by_cases hp : (MelodyValidator.validate_all v w.notes true true true rr).passed
    · simp only [MelodyValidator.filter_valid_variations, hp, if_true,
        List.filter_cons, List.map_cons, ih]
    · simp only [MelodyValidator.filter_valid_variations, hp, if_false,
        List.filter_cons, ih]
      simp [hp]

/-! ## Claim C7: DTW backtracking preference order -/

theorem pyMin3_eval (cd cu cl : Option ℕ) (i j : ℕ) :
    MelodyInterpolator.pyMin3 (cd, (i, j)) (cu, (i, j + 1)) (cl, (i + 1, j))
      = (MelodyInterpolator.costMin (MelodyInterpolator.costMin cd cu) cl,
         MelodyInterpolator.selectPreferDiag cd cu cl (i, j) (i, j + 1) (i + 1, j)) := by
  rcases cd with _ | x <;> rcases cu with _ | y <;> rcases cl with _ | z <;>
    simp [MelodyInterpolator.pyMin3, MelodyInterpolator.entryLtB,
      MelodyInterpolator.costLtB, MelodyInterpolator.costLeB,
      MelodyInterpolator.pairLtB, MelodyInterpolator.costMin,
      MelodyInterpolator.selectPreferDiag, Nat.lt_irrefl] <;>
    split_ifs <;> simp_all <;> omega

/-- C7: the backtracking step of `_dtw_align` from any interior cell
`(i+1, j+1)` picks exactly the predecessor prescribed by the spec's
rule — minimum accumulated cost with the diagonal preferred on ties,
then up, then left — and the accumulated cost at the picked
predecessor is the minimum of the three predecessors' costs. -/
theorem C7_dtw_backtrack_preference (a b : List Int) (i j : ℕ) :
    MelodyInterpolator.backStep a b i j
      = MelodyInterpolator.selectPreferDiag
          (MelodyInterpolator.dtwCostAt a b i j)
          (MelodyInterpolator.dtwCostAt a b i (j + 1))
          (MelodyInterpolator.dtwCostAt a b (i + 1) j)
          (i, j) (i, j + 1) (i + 1, j) ∧
    MelodyInterpolator.dtwCostAt a b (MelodyInterpolator.backStep a b i j).1
        (MelodyInterpolator.backStep a b i j).2
      = MelodyInterpolator.costMin
          (MelodyInterpolator.costMin (MelodyInterpolator.dtwCostAt a b i j)
            (MelodyInterpolator.dtwCostAt a b i (j + 1)))
          (MelodyInterpolator.dtwCostAt a b (i + 1) j) := by
  have hback : MelodyInterpolator.backStep a b i j
      = MelodyInterpolator.selectPreferDiag
          (MelodyInterpolator.dtwCostAt a b i j)
          (MelodyInterpolator.dtwCostAt a b i (j + 1))
          (MelodyInterpolator.dtwCostAt a b (i + 1) j)
          (i, j) (i, j + 1) (i + 1, j) := by
    unfold MelodyInterpolator.backStep
    rw [pyMin3_eval]
  refine ⟨hback, ?_⟩
  rw [hback]
  unfold MelodyInterpolator.selectPreferDiag
  split_ifs with h1 h2
  · revert h1
    generalize MelodyInterpolator.dtwCostAt a b i j = cd
    generalize MelodyInterpolator.dtwCostAt a b i (j + 1) = cu
    generalize MelodyInterpolator.dtwCostAt a b (i + 1) j = cl
    intro h1
    rcases cd with _ | x <;> rcases cu with _ | y <;> rcases cl with _ | z <;>
      simp_all [MelodyInterpolator.costLeB, MelodyInterpolator.costMin]
  · revert h1 h2
    generalize MelodyInterpolator.dtwCostAt a b i j = cd
    generalize MelodyInterpolator.dtwCostAt a b i (j + 1) = cu
    generalize MelodyInterpolator.dtwCostAt a b (i + 1) j = cl
    intro h1 h2
    rcases cd with _ | x <;> rcases cu with _ | y <;> rcases cl with _ | z <;>
      simp_all [MelodyInterpolator.costLeB, MelodyInterpolator.costMin] <;> omega
  · revert h1 h2
    generalize MelodyInterpolator.dtwCostAt a b i j = cd
    generalize MelodyInterpolator.dtwCostAt a b i (j + 1) = cu
    generalize MelodyInterpolator.dtwCostAt a b (i + 1) j = cl
    intro h1 h2
    rcases cd with _ | x <;> rcases cu with _ | y <;> rcases cl with _ | z <;>
      simp_all [MelodyInterpolator.costLeB, MelodyInterpolator.costMin] <;> omega

/-! ## Interpolation shape lemmas (claims C4-C6) -/

theorem sandwich_spec {α : Type} (A B : α) (f : ℕ → α) (steps : ℕ) :
    ([A] ++ (List.range steps).map f ++ [B]).length = steps + 2 ∧
    ([A] ++ (List.range steps).map f ++ [B]).head? = some A ∧
    ([A] ++ (List.range steps).map f ++ [B]).getLast? = some B ∧
    ∀ k, 1 ≤ k → k ≤ steps →
      ([A] ++ (List.range steps).map f ++ [B])[k]? = some (f (k - 1)) := by
  refine ⟨?_, rfl, List.getLast?_concat _, ?_⟩
  · simp only [List.length_append, List.length_map, List.length_range,
      List.length_cons, List.length_nil]
    omega
  · intro k h1 h2
    obtain ⟨k', rfl⟩ : ∃ k', k = k' + 1 := ⟨k - 1, by omega⟩
    rw [List.append_assoc, List.singleton_append, List.getElem?_cons_succ]
    rw [List.getElem?_append, if_pos (by simp only [List.length_map, List.length_range]; omega)]
    rw [List.getElem?_map, List.getElem?_range (by omega)]
    simp

theorem optMapList_eq_map {α β : Type} {f : α → Option β} {g : α → β}
    {l : List α} (h : ∀ x ∈ l, f x = some (g x)) :
    MelodyInterpolator.optMapList f l = some (l.map g) := by
  induction l with
  | nil => rfl
  | cons x xs ih =>
    rw [MelodyInterpolator.optMapList, h x (by simp),
      ih (fun y hy => h y (by simp [hy]))]
    rfl

theorem rhythm_density_nonneg (m : List Note) :
    0 ≤ (MelodyInterpolator.extract_features m).rhythm_density := by
  simp only [MelodyInterpolator.extract_features]
  split
  · next h => positivity
  · exact le_refl 0

theorem step_factor_pos {steps s : ℕ} (hs : s < steps) :
    (0 : ℚ) < ((s : ℚ) + 1) / ((steps : ℚ) + 1) ∧
      ((s : ℚ) + 1) / ((steps : ℚ) + 1) < 1 := by
  constructor
  · apply div_pos <;> positivity
  · rw [div_lt_one (by positivity)]
    have : (s : ℚ) < (steps : ℚ) := by exact_mod_cast hs
    linarith

theorem blend_density_pos {da db t : ℚ} (hda : 0 ≤ da) (hdb : 0 ≤ db)
    (h : 0 < da ∨ 0 < db) (ht0 : 0 < t) (ht1 : t < 1) :
    0 < (1 - t) * da + t * db := by
  rcases h with h | h
  · have h1 : 0 < (1 - t) * da := mul_pos (by linarith) h
    have h2 : 0 ≤ t * db := mul_nonneg (le_of_lt ht0) hdb
    linarith
  · have h1 : 0 ≤ (1 - t) * da := mul_nonneg (by linarith) hda
    have h2 : 0 < t * db := mul_pos ht0 h
    linarith

theorem step_cast {k : ℕ} (h1 : 1 ≤ k) : ((k - 1 : ℕ) : ℚ) + 1 = (k : ℚ) := by
  rw [Nat.cast_sub h1]
  push_cast
  ring

theorem dtw_interpolate_eq (ip : ScaleCtx) (a b : List Note) (steps : ℕ)
    (ha : a ≠ []) (hb : b ≠ []) :
    MelodyInterpolator.dtw_interpolate ip a b steps =
      [a] ++ (List.range steps).map (fun (s : ℕ) =>
        MelodyInterpolator.interpolate_aligned ip a b
          (MelodyInterpolator.dtw_align (a.map (·.midi)) (b.map (·.midi)))
          (((s : ℚ) + 1) / ((steps : ℚ) + 1))) ++ [b] := by
  rw [MelodyInterpolator.dtw_interpolate, if_neg (by simp [ha, hb])]

theorem contour_interpolate_eq (ip : ScaleCtx) (a b : List Note) (steps : ℕ)
    (ha : a ≠ []) (hb : b ≠ []) :
    MelodyInterpolator.contour_interpolate ip a b steps =
      [a] ++ (List.range steps).map (fun (s : ℕ) =>
        let t : ℚ := ((s : ℚ) + 1) / ((steps : ℚ) + 1)
        MelodyInterpolator.contour_to_melody ip
          ((MelodyInterpolator.resample_contour
              (MelodyInterpolator.normalize_contour (a.map (·.midi)))
              (max (MelodyInterpolator.normalize_contour (a.map (·.midi))).length
                   (MelodyInterpolator.normalize_contour (b.map (·.midi))).length)).zipWith
            (fun x y => (1 - t) * x + t * y)
            (MelodyInterpolator.resample_contour
              (MelodyInterpolator.normalize_contour (b.map (·.midi)))
              (max (MelodyInterpolator.normalize_contour (a.map (·.midi))).length
                   (MelodyInterpolator.normalize_contour (b.map (·.midi))).length)))
          a b t) ++ [b] := by
  rw [MelodyInterpolator.contour_interpolate, if_neg (by simp [ha, hb])]

theorem synthesize_some (ip : ScaleCtx) (a b : List Note) {t : ℚ}
    (ht0 : 0 < t) (ht1 : t < 1)
    (hd : 0 < (MelodyInterpolator.extract_features a).rhythm_density ∨
          0 < (MelodyInterpolator.extract_features b).rhythm_density) :
    MelodyInterpolator.synthesize_from_features ip
        (MelodyInterpolator.blendFeatures (MelodyInterpolator.extract_features a)
          (MelodyInterpolator.extract_features b) t) a b t
      = some (MelodyInterpolator.synthCore ip
          (MelodyInterpolator.blendFeatures (MelodyInterpolator.extract_features a)
            (MelodyInterpolator.extract_features b) t) a b t
          ((pyInt ((1 - t) * (a.length : ℚ) + t * (b.length : ℚ))).toNat)) := by
  have hpos : 0 < (MelodyInterpolator.blendFeatures
      (MelodyInterpolator.extract_features a)
      (MelodyInterpolator.extract_features b) t).rhythm_density :=
    blend_density_pos (rhythm_density_nonneg a) (rhythm_density_nonneg b) hd ht0 ht1
  rw [MelodyInterpolator.synthesize_from_features,
    if_neg (by intro hcon; exact absurd hcon.2 (ne_of_gt hpos))]

theorem feature_interpolate_eq (ip : ScaleCtx) (a b : List Note) (steps : ℕ)
    (ha : a ≠ []) (hb : b ≠ [])
    (hd : 0 < (MelodyInterpolator.extract_features a).rhythm_density ∨
          0 < (MelodyInterpolator.extract_features b).rhythm_density) :
    MelodyInterpolator.feature_interpolate ip a b steps =
      some ([a] ++ (List.range steps).map (fun (s : ℕ) =>
        let t : ℚ := ((s : ℚ) + 1) / ((steps : ℚ) + 1)
        MelodyInterpolator.synthCore ip
          (MelodyInterpolator.blendFeatures (MelodyInterpolator.extract_features a)
            (MelodyInterpolator.extract_features b) t) a b t
          ((pyInt ((1 - t) * (a.length : ℚ) + t * (b.length : ℚ))).toNat)) ++ [b]) := by
  rw [MelodyInterpolator.feature_interpolate, if_neg (by simp [ha, hb])]
  have hmap := @optMapList_eq_map ℕ (List Note)
    (fun (s : ℕ) =>
      let t : ℚ := ((s : ℚ) + 1) / ((steps : ℚ) + 1)
      MelodyInterpolator.synthesize_from_features ip
        (MelodyInterpolator.blendFeatures (MelodyInterpolator.extract_features a)
          (MelodyInterpolator.extract_features b) t) a b t)
    (fun (s : ℕ) =>
      let t : ℚ := ((s : ℚ) + 1) / ((steps : ℚ) + 1)
      MelodyInterpolator.synthCore ip
        (MelodyInterpolator.blendFeatures (MelodyInterpolator.extract_features a)
          (MelodyInterpolator.extract_features b) t) a b t
        ((pyInt ((1 - t) * (a.length : ℚ) + t * (b.length : ℚ))).toNat))
    (List.range steps)
    (by
      intro s hs
      have hslt := List.mem_range.mp hs
      have ht := @step_factor_pos steps s hslt
      exact synthesize_some ip a b ht.1 ht.2 hd)
  simp only [hmap]

/-- C4 (amended): all three interpolation methods return `steps + 2`
melodies, melody A verbatim first and melody B verbatim last, with the
k-th intermediate synthesized at `t = k/(steps+1)`; empty input on
either side yields the empty list.  For `feature_interpolate` this
holds under the proviso that at least one input melody has positive
rhythm density (positive time span) — otherwise the placement
division raises (see the counterexample). -/
theorem C4_interpolation_shape (ip : ScaleCtx) (a b : List Note) (steps : ℕ) :
    (a ≠ [] → b ≠ [] →
      (MelodyInterpolator.dtw_interpolate ip a b steps).length = steps + 2 ∧
      (MelodyInterpolator.dtw_interpolate ip a b steps).head? = some a ∧
      (MelodyInterpolator.dtw_interpolate ip a b steps).getLast? = some b ∧
      ∀ k, 1 ≤ k → k ≤ steps →
        (MelodyInterpolator.dtw_interpolate ip a b steps)[k]? =
          some (MelodyInterpolator.interpolate_aligned ip a b
            (MelodyInterpolator.dtw_align (a.map (·.midi)) (b.map (·.midi)))
            ((k : ℚ) / ((steps : ℚ) + 1)))) ∧
    (a ≠ [] → b ≠ [] →
      (MelodyInterpolator.contour_interpolate ip a b steps).length = steps + 2 ∧
      (MelodyInterpolator.contour_interpolate ip a b steps).head? = some a ∧
      (MelodyInterpolator.contour_interpolate ip a b steps).getLast? = some b ∧
      ∀ k, 1 ≤ k → k ≤ steps →
        (MelodyInterpolator.contour_interpolate ip a b steps)[k]? =
          some (MelodyInterpolator.contour_to_melody ip
            ((MelodyInterpolator.resample_contour
                (MelodyInterpolator.normalize_contour (a.map (·.midi)))
                (max (MelodyInterpolator.normalize_contour (a.map (·.midi))).length
                     (MelodyInterpolator.normalize_contour (b.map (·.midi))).length)).zipWith
              (fun x y => (1 - (k : ℚ) / ((steps : ℚ) + 1)) * x
                            + ((k : ℚ) / ((steps : ℚ) + 1)) * y)
              (MelodyInterpolator.resample_contour
                (MelodyInterpolator.normalize_contour (b.map (·.midi)))
                (max (MelodyInterpolator.normalize_contour (a.map (·.midi))).length
                     (MelodyInterpolator.normalize_contour (b.map (·.midi))).length)))
            a b ((k : ℚ) / ((steps : ℚ) + 1)))) ∧
    (a ≠ [] → b ≠ [] →
      (0 < (MelodyInterpolator.extract_features a).rhythm_density ∨
        0 < (MelodyInterpolator.extract_features b).rhythm_density) →
      (MelodyInterpolator.feature_interpolate ip a b steps).isSome = true ∧
      ((MelodyInterpolator.feature_interpolate ip a b steps).getD []).length = steps + 2 ∧
      ((MelodyInterpolator.feature_interpolate ip a b steps).getD []).head? = some a ∧
      ((MelodyInterpolator.feature_interpolate ip a b steps).getD []).getLast? = some b ∧
      ∀ k, 1 ≤ k → k ≤ steps →
        ((MelodyInterpolator.feature_interpolate ip a b steps).getD [])[k]? =
          some (MelodyInterpolator.synthCore ip
            (MelodyInterpolator.blendFeatures (MelodyInterpolator.extract_features a)
              (MelodyInterpolator.extract_features b) ((k : ℚ) / ((steps : ℚ) + 1)))
            a b ((k : ℚ) / ((steps : ℚ) + 1))
            ((pyInt ((1 - (k : ℚ) / ((steps : ℚ) + 1)) * (a.length : ℚ)
                + ((k : ℚ) / ((steps : ℚ) + 1)) * (b.length : ℚ))).toNat))) ∧
    (a = [] ∨ b = [] →
      MelodyInterpolator.dtw_interpolate ip a b steps = [] ∧
      MelodyInterpolator.contour_interpolate ip a b steps = [] ∧
      MelodyInterpolator.feature_interpolate ip a b steps = some []) := by
  refine ⟨?_, ?_, ?_, ?_⟩
  · intro ha hb
    rw [dtw_interpolate_eq ip a b steps ha hb]
    obtain ⟨hlen, hhead, hlast, hget⟩ := sandwich_spec a b
      (fun (s : ℕ) =>
        MelodyInterpolator.interpolate_aligned ip a b
          (MelodyInterpolator.dtw_align (a.map (·.midi)) (b.map (·.midi)))
          (((s : ℚ) + 1) / ((steps : ℚ) + 1))) steps
    refine ⟨hlen, hhead, hlast, ?_⟩
    intro k h1 h2
    rw [hget k h1 h2]
    simp only [step_cast h1]
  · intro ha hb
    rw [contour_interpolate_eq ip a b steps ha hb]
    obtain ⟨hlen, hhead, hlast, hget⟩ := sandwich_spec a b
      (fun (s : ℕ) =>
        let t : ℚ := ((s : ℚ) + 1) / ((steps : ℚ) + 1)
        MelodyInterpolator.contour_to_melody ip
          ((MelodyInterpolator.resample_contour
              (MelodyInterpolator.normalize_contour (a.map (·.midi)))
              (max (MelodyInterpolator.normalize_contour (a.map (·.midi))).length
                   (MelodyInterpolator.normalize_contour (b.map (·.midi))).length)).zipWith
            (fun x y => (1 - t) * x + t * y)
            (MelodyInterpolator.resample_contour
              (MelodyInterpolator.normalize_contour (b.map (·.midi)))
              (max (MelodyInterpolator.normalize_contour (a.map (·.midi))).length
                   (MelodyInterpolator.normalize_contour (b.map (·.midi))).length)))
          a b t) steps
    refine ⟨hlen, hhead, hlast, ?_⟩
    intro k h1 h2
    rw [hget k h1 h2]
    simp only [step_cast h1]
  · intro ha hb hd
    rw [feature_interpolate_eq ip a b steps ha hb hd]
    obtain ⟨hlen, hhead, hlast, hget⟩ := sandwich_spec a b
      (fun (s : ℕ) =>
        let t : ℚ := ((s : ℚ) + 1) / ((steps : ℚ) + 1)
        MelodyInterpolator.synthCore ip
          (MelodyInterpolator.blendFeatures (MelodyInterpolator.extract_features a)
            (MelodyInterpolator.extract_features b) t) a b t
          ((pyInt ((1 - t) * (a.length : ℚ) + t * (b.length : ℚ))).toNat)) steps
    refine ⟨rfl, hlen, hhead, hlast, ?_⟩
    intro k h1 h2
    rw [Option.getD_some, hget k h1 h2]
    simp only [step_cast h1]
  · intro h
    refine ⟨?_, ?_, ?_⟩
    · rw [MelodyInterpolator.dtw_interpolate, if_pos h]
    · rw [MelodyInterpolator.contour_interpolate, if_pos h]
    · rw [MelodyInterpolator.feature_interpolate, if_pos h]

theorem density_single (n : Note) (h : 0 < n.duration) :
    0 < (MelodyInterpolator.extract_features [n]).rhythm_density := by
  have h1 : ([n].getLastD ⟨0, 0, 0, 0⟩) = n := rfl
  have h2 : ([n].headD ⟨0, 0, 0, 0⟩) = n := rfl
  simp only [MelodyInterpolator.extract_features, h1, h2, List.length_cons,
    List.length_nil, Nat.cast_one]
  have htot : n.time + n.duration - n.time = n.duration := by ring
  rw [htot, if_pos h]
  positivity

/-- C4 witness: two single-note melodies of duration 1 at steps = 1:
all three methods produce 3 melodies, with the feature method
defined. -/
theorem C4_interpolation_shape_witness :
    (([⟨60, 0, 1, 1⟩] : List Note) ≠ []) ∧
    (([⟨72, 0, 1, 1⟩] : List Note) ≠ []) ∧
    (0 < (MelodyInterpolator.extract_features [⟨60, 0, 1, 1⟩]).rhythm_density) ∧
    (MelodyInterpolator.dtw_interpolate (mkScaleCtx "major" 0)
        [⟨60, 0, 1, 1⟩] [⟨72, 0, 1, 1⟩] 1).length = 1 + 2 ∧
    (MelodyInterpolator.contour_interpolate (mkScaleCtx "major" 0)
        [⟨60, 0, 1, 1⟩] [⟨72, 0, 1, 1⟩] 1).length = 1 + 2 ∧
    (MelodyInterpolator.feature_interpolate (mkScaleCtx "major" 0)
        [⟨60, 0, 1, 1⟩] [⟨72, 0, 1, 1⟩] 1).isSome = true ∧
    ((MelodyInterpolator.feature_interpolate (mkScaleCtx "major" 0)
        [⟨60, 0, 1, 1⟩] [⟨72, 0, 1, 1⟩] 1).getD []).length = 1 + 2 :=
  ⟨by decide, by decide, density_single ⟨60, 0, 1, 1⟩ (by norm_num),
   ((C4_interpolation_shape (mkScaleCtx "major" 0)
      [⟨60, 0, 1, 1⟩] [⟨72, 0, 1, 1⟩] 1).1 (by decide) (by decide)).1,
   ((C4_interpolation_shape (mkScaleCtx "major" 0)
      [⟨60, 0, 1, 1⟩] [⟨72, 0, 1, 1⟩] 1).2.1 (by decide) (by decide)).1,
   ((C4_interpolation_shape (mkScaleCtx "major" 0)
      [⟨60, 0, 1, 1⟩] [⟨72, 0, 1, 1⟩] 1).2.2.1 (by decide) (by decide)
      (Or.inl (density_single ⟨60, 0, 1, 1⟩ (by norm_num)))).1,
   ((C4_interpolation_shape (mkScaleCtx "major" 0)
      [⟨60, 0, 1, 1⟩] [⟨72, 0, 1, 1⟩] 1).2.2.1 (by decide) (by decide)
      (Or.inl (density_single ⟨60, 0, 1, 1⟩ (by norm_num)))).2.1⟩

/-- C4 counterexample: when both single-note inputs have zero
duration, both rhythm densities are 0, the blended density is 0, and
`feature_interpolate` with `steps = 1` hits `ZeroDivisionError` at
the note-placement division (modelled as `none`) instead of
returning a 3-element list. -/
theorem C4_feature_interpolate_raises :
    MelodyInterpolator.feature_interpolate (mkScaleCtx "major" 0)
      [⟨60, 0, 0, 1⟩] [⟨72, 0, 0, 1⟩] 1 = none := by
  have hda : (MelodyInterpolator.extract_features [(⟨60, 0, 0, 1⟩ : Note)]).rhythm_density
      = 0 := by
    simp only [MelodyInterpolator.extract_features]
    norm_num
  have hdb : (MelodyInterpolator.extract_features [(⟨72, 0, 0, 1⟩ : Note)]).rhythm_density
      = 0 := by
    simp only [MelodyInterpolator.extract_features]
    norm_num
  rw [MelodyInterpolator.feature_interpolate, if_neg (by simp)]
  have hsynth : MelodyInterpolator.synthesize_from_features (mkScaleCtx "major" 0)
      (MelodyInterpolator.blendFeatures
        (MelodyInterpolator.extract_features [(⟨60, 0, 0, 1⟩ : Note)])
        (MelodyInterpolator.extract_features [(⟨72, 0, 0, 1⟩ : Note)])
        ((((0 : ℕ) : ℚ) + 1) / (((1 : ℕ) : ℚ) + 1)))
      [⟨60, 0, 0, 1⟩] [⟨72, 0, 0, 1⟩]
      ((((0 : ℕ) : ℚ) + 1) / (((1 : ℕ) : ℚ) + 1)) = none := by
    rw [MelodyInterpolator.synthesize_from_features]
    rw [if_pos]
    constructor
    · have harg : ((1 - (((0 : ℕ) : ℚ) + 1) / (((1 : ℕ) : ℚ) + 1))
            * (([(⟨60, 0, 0, 1⟩ : Note)].length : ℕ) : ℚ)
          + ((((0 : ℕ) : ℚ) + 1) / (((1 : ℕ) : ℚ) + 1))
            * (([(⟨72, 0, 0, 1⟩ : Note)].length : ℕ) : ℚ)) = 1 := by
        norm_num
      rw [harg]
      norm_num [pyInt]
    · simp only [MelodyInterpolator.blendFeatures, hda, hdb]
      ring
  have hrange : List.range 1 = [0] := rfl
  simp only [hrange, MelodyInterpolator.optMapList]
  rw [hsynth]

/-! ## Claim C5: single-note melodies -/

/-- C5 (amended): for single-note inputs, `dtw_interpolate` and
`contour_interpolate` always return their `steps + 2` melodies, and
`feature_interpolate` completes without raising provided at least one
of the two notes has positive duration (a single note's time span is
its duration); with both durations 0 the blended rhythm density is 0
and the placement division raises (see the counterexample). -/
theorem C5_single_note_no_raise (ip : ScaleCtx) (na nb : Note) (steps : ℕ) :
    ((MelodyInterpolator.dtw_interpolate ip [na] [nb] steps).length = steps + 2 ∧
     (MelodyInterpolator.contour_interpolate ip [na] [nb] steps).length = steps + 2) ∧
    ((0 < na.duration ∨ 0 < nb.duration) →
      (MelodyInterpolator.feature_interpolate ip [na] [nb] steps).isSome = true) := by
  constructor
  · constructor
    · rw [dtw_interpolate_eq ip [na] [nb] steps (by simp) (by simp)]
      simp only [List.length_append, List.length_map, List.length_range,
        List.length_cons, List.length_nil]
      omega
    · rw [contour_interpolate_eq ip [na] [nb] steps (by simp) (by simp)]
      simp only [List.length_append, List.length_map, List.length_range,
        List.length_cons, List.length_nil]
      omega
  · intro h
    have hd : 0 < (MelodyInterpolator.extract_features [na]).rhythm_density ∨
        0 < (MelodyInterpolator.extract_features [nb]).rhythm_density := by
      rcases h with h | h
      · exact Or.inl (density_single na h)
      · exact Or.inr (density_single nb h)
    rw [feature_interpolate_eq ip [na] [nb] steps (by simp) (by simp) hd]
    rfl

/-- C5 witness: two single notes of durations 2 and 3 at steps = 5:
nothing raises and all shapes are as claimed. -/
theorem C5_single_note_no_raise_witness :
    ((0 : ℚ) < (⟨64, 0, 2, 1⟩ : Note).duration ∨
      (0 : ℚ) < (⟨55, 1, 3, 1⟩ : Note).duration) ∧
    (MelodyInterpolator.dtw_interpolate (mkScaleCtx "minor" 2)
        [⟨64, 0, 2, 1⟩] [⟨55, 1, 3, 1⟩] 5).length = 5 + 2 ∧
    (MelodyInterpolator.contour_interpolate (mkScaleCtx "minor" 2)
        [⟨64, 0, 2, 1⟩] [⟨55, 1, 3, 1⟩] 5).length = 5 + 2 ∧
    (MelodyInterpolator.feature_interpolate (mkScaleCtx "minor" 2)
        [⟨64, 0, 2, 1⟩] [⟨55, 1, 3, 1⟩] 5).isSome = true :=
  ⟨Or.inl (by norm_num),
   ((C5_single_note_no_raise (mkScaleCtx "minor" 2) ⟨64, 0, 2, 1⟩ ⟨55, 1, 3, 1⟩ 5).1).1,
   ((C5_single_note_no_raise (mkScaleCtx "minor" 2) ⟨64, 0, 2, 1⟩ ⟨55, 1, 3, 1⟩ 5).1).2,
   (C5_single_note_no_raise (mkScaleCtx "minor" 2) ⟨64, 0, 2, 1⟩ ⟨55, 1, 3, 1⟩ 5).2
     (Or.inl (by norm_num))⟩

/-- C5 counterexample: two single notes with duration 0 (durations
the claim allows: `>= 0`) make both rhythm densities 0, and
`feature_interpolate` raises `ZeroDivisionError` (modelled `none`)
rather than returning, so "never raises" fails as stated. -/
theorem C5_single_note_zero_duration_raises :
    MelodyInterpolator.feature_interpolate (mkScaleCtx "minor" 2)
      [⟨65, 3, 0, 1⟩] [⟨50, 7, 0, 1⟩] 1 = none := by
  have hda : (MelodyInterpolator.extract_features [(⟨65, 3, 0, 1⟩ : Note)]).rhythm_density
      = 0 := by
    simp only [MelodyInterpolator.extract_features]
    norm_num
  have hdb : (MelodyInterpolator.extract_features [(⟨50, 7, 0, 1⟩ : Note)]).rhythm_density
      = 0 := by
    simp only [MelodyInterpolator.extract_features]
    norm_num
  rw [MelodyInterpolator.feature_interpolate, if_neg (by simp)]
  have hsynth : MelodyInterpolator.synthesize_from_features (mkScaleCtx "minor" 2)
      (MelodyInterpolator.blendFeatures
        (MelodyInterpolator.extract_features [(⟨65, 3, 0, 1⟩ : Note)])
        (MelodyInterpolator.extract_features [(⟨50, 7, 0, 1⟩ : Note)])
        ((((0 : ℕ) : ℚ) + 1) / (((1 : ℕ) : ℚ) + 1)))
      [⟨65, 3, 0, 1⟩] [⟨50, 7, 0, 1⟩]
      ((((0 : ℕ) : ℚ) + 1) / (((1 : ℕ) : ℚ) + 1)) = none := by
    rw [MelodyInterpolator.synthesize_from_features]
    rw [if_pos]
    constructor
    · have harg : ((1 - (((0 : ℕ) : ℚ) + 1) / (((1 : ℕ) : ℚ) + 1))
            * (([(⟨65, 3, 0, 1⟩ : Note)].length : ℕ) : ℚ)
          + ((((0 : ℕ) : ℚ) + 1) / (((1 : ℕ) : ℚ) + 1))
            * (([(⟨50, 7, 0, 1⟩ : Note)].length : ℕ) : ℚ)) = 1 := by
        norm_num
      rw [harg]
      norm_num [pyInt]
    · simp only [MelodyInterpolator.blendFeatures, hda, hdb]
      ring
  have hrange : List.range 1 = [0] := rfl
  simp only [hrange, MelodyInterpolator.optMapList]
  rw [hsynth]

/-! ## Claim C6: the DTW-interpolated note formula -/

/-- C6 (amended): each DTW-interpolated note takes the scale-snap of
the *truncated* (Python `int()`, not `round`) linear pitch
interpolation, with onset, duration and velocity linearly
interpolated; the spec's concrete example is unaffected because
`round(66) = int(66) = 66`: interpolating single notes 60 and 72 at
`steps = 1` gives exactly 3 melodies whose middle melody's only pitch
is `snapToScale(round(66))`. -/
theorem C6_dtw_note_formula (ip : ScaleCtx) (a b : List Note) (steps k : ℕ)
    (h1 : 1 ≤ k) (h2 : k ≤ steps) (ha : a ≠ []) (hb : b ≠ []) :
    ((MelodyInterpolator.dtw_interpolate ip a b steps)[k]? =
      some ((MelodyInterpolator.dtw_align (a.map (·.midi)) (b.map (·.midi))).map
        (fun idx =>
          { midi := MelodyInterpolator.snap_to_scale ip
              (pyInt ((1 - (k : ℚ) / ((steps : ℚ) + 1))
                  * ((a.getD idx.1 ⟨0, 0, 0, 0⟩).midi : ℚ)
                + ((k : ℚ) / ((steps : ℚ) + 1))
                  * ((b.getD idx.2 ⟨0, 0, 0, 0⟩).midi : ℚ))),
            time := (1 - (k : ℚ) / ((steps : ℚ) + 1)) * (a.getD idx.1 ⟨0, 0, 0, 0⟩).time
                + ((k : ℚ) / ((steps : ℚ) + 1)) * (b.getD idx.2 ⟨0, 0, 0, 0⟩).time,
            duration := (1 - (k : ℚ) / ((steps : ℚ) + 1))
                  * (a.getD idx.1 ⟨0, 0, 0, 0⟩).duration
                + ((k : ℚ) / ((steps : ℚ) + 1)) * (b.getD idx.2 ⟨0, 0, 0, 0⟩).duration,
            velocity := (1 - (k : ℚ) / ((steps : ℚ) + 1))
                  * (a.getD idx.1 ⟨0, 0, 0, 0⟩).velocity
                + ((k : ℚ) / ((steps : ℚ) + 1))
                  * (b.getD idx.2 ⟨0, 0, 0, 0⟩).velocity }))) ∧
    (MelodyInterpolator.dtw_interpolate (mkScaleCtx "major" 0)
        [⟨60, 0, 1, 1⟩] [⟨72, 0, 1, 1⟩] 1).length = 3 ∧
    ((MelodyInterpolator.dtw_interpolate (mkScaleCtx "major" 0)
        [⟨60, 0, 1, 1⟩] [⟨72, 0, 1, 1⟩] 1).getD 1 []).map (·.midi)
      = [MelodyInterpolator.snap_to_scale (mkScaleCtx "major" 0) (pyRound (66 : ℚ))] := by
  refine ⟨?_, ?_, ?_⟩
  · rw [dtw_interpolate_eq ip a b steps ha hb]
    obtain ⟨_, _, _, hget⟩ := sandwich_spec a b
      (fun (s : ℕ) =>
        MelodyInterpolator.interpolate_aligned ip a b
          (MelodyInterpolator.dtw_align (a.map (·.midi)) (b.map (·.midi)))
          (((s : ℚ) + 1) / ((steps : ℚ) + 1))) steps
    rw [hget k h1 h2]
    simp only [step_cast h1]
    rfl
  · rw [dtw_interpolate_eq (mkScaleCtx "major" 0) [⟨60, 0, 1, 1⟩] [⟨72, 0, 1, 1⟩] 1
      (by decide) (by decide)]
    rfl
  · rw [dtw_interpolate_eq (mkScaleCtx "major" 0) [⟨60, 0, 1, 1⟩] [⟨72, 0, 1, 1⟩] 1
      (by decide) (by decide)]
    have hrange : List.range 1 = [0] := rfl
    rw [hrange]
    simp only [List.map_cons, List.map_nil, List.singleton_append, List.cons_append,
      List.nil_append, List.getD, List.get?_cons_succ, List.get?_cons_zero,
      Option.getD_some]
    have halign : MelodyInterpolator.dtw_align [60] [72] = [(0, 0)] := by decide
    rw [halign, MelodyInterpolator.interpolate_aligned]
    simp only [List.map_cons, List.map_nil]
    have hq : ((1 - (((0 : ℕ) : ℚ) + 1) / (((1 : ℕ) : ℚ) + 1))
          * ((([(⟨60, 0, 1, 1⟩ : Note)].getD 0 ⟨0, 0, 0, 0⟩).midi : ℚ))
        + ((((0 : ℕ) : ℚ) + 1) / (((1 : ℕ) : ℚ) + 1))
          * ((([(⟨72, 0, 1, 1⟩ : Note)].getD 0 ⟨0, 0, 0, 0⟩).midi : ℚ))) = 66 := by
      norm_num [List.getD]
    rw [hq]
    have hint : pyInt (66 : ℚ) = 66 := by norm_num [pyInt]
    have hround : pyRound (66 : ℚ) = 66 := by
      simp only [pyRound]
      norm_num
    rw [hint, hround]

/-- C6 witness: the theorem applied to the spec's own example
(single notes 60 and 72, steps = 1, k = 1). -/
theorem C6_dtw_note_formula_witness :
    (1 ≤ 1 ∧ (([⟨60, 0, 1, 1⟩] : List Note) ≠ [])) ∧
    (MelodyInterpolator.dtw_interpolate (mkScaleCtx "major" 0)
        [⟨60, 0, 1, 1⟩] [⟨72, 0, 1, 1⟩] 1).length = 3 ∧
    ((MelodyInterpolator.dtw_interpolate (mkScaleCtx "major" 0)
        [⟨60, 0, 1, 1⟩] [⟨72, 0, 1, 1⟩] 1).getD 1 []).map (·.midi)
      = [MelodyInterpolator.snap_to_scale (mkScaleCtx "major" 0) (pyRound (66 : ℚ))] :=
  ⟨⟨le_refl 1, by decide⟩,
   (C6_dtw_note_formula (mkScaleCtx "major" 0) [⟨60, 0, 1, 1⟩] [⟨72, 0, 1, 1⟩] 1 1
      (le_refl 1) (le_refl 1) (by decide) (by decide)).2.1,
   (C6_dtw_note_formula (mkScaleCtx "major" 0) [⟨60, 0, 1, 1⟩] [⟨72, 0, 1, 1⟩] 1 1
      (le_refl 1) (le_refl 1) (by decide) (by decide)).2.2⟩

/-- C6 counterexample: interpolating single notes 60 and 74 at
`steps = 2`, the first intermediate (t = 1/3) linearly interpolates
to 194/3 ≈ 64.67; the source truncates to 64 (in scale, kept), while
the claimed `round` would give 65 (in scale, kept), so the emitted
pitch differs from the claimed `snapToScale(round(lerp))`. -/
theorem C6_dtw_pitch_truncates_not_rounds :
    ((MelodyInterpolator.dtw_interpolate (mkScaleCtx "major" 0)
        [⟨60, 0, 1, 1⟩] [⟨74, 1, 1, 1⟩] 2).getD 1 []).map (·.midi) = [64] ∧
    MelodyInterpolator.snap_to_scale (mkScaleCtx "major" 0)
        (pyRound ((1 - ((1 : ℕ) : ℚ) / (((2 : ℕ) : ℚ) + 1)) * 60
          + (((1 : ℕ) : ℚ) / (((2 : ℕ) : ℚ) + 1)) * 74)) = 65 ∧
    ([(64 : Int)] : List Int) ≠ [65] := by
  refine ⟨?_, ?_, by decide⟩
  · rw [dtw_interpolate_eq (mkScaleCtx "major" 0) [⟨60, 0, 1, 1⟩] [⟨74, 1, 1, 1⟩] 2
      (by decide) (by decide)]
    have hrange : List.range 2 = [0, 1] := rfl
    rw [hrange]
    simp only [List.map_cons, List.map_nil, List.singleton_append, List.cons_append,
      List.nil_append, List.getD, List.get?_cons_succ, List.get?_cons_zero,
      Option.getD_some]
    have halign : MelodyInterpolator.dtw_align [60] [74] = [(0, 0)] := by decide
    rw [halign, MelodyInterpolator.interpolate_aligned]
    simp only [List.map_cons, List.map_nil]
    have hq : ((1 - (((0 : ℕ) : ℚ) + 1) / (((2 : ℕ) : ℚ) + 1))
          * ((([(⟨60, 0, 1, 1⟩ : Note)].getD 0 ⟨0, 0, 0, 0⟩).midi : ℚ))
        + ((((0 : ℕ) : ℚ) + 1) / (((2 : ℕ) : ℚ) + 1))
          * ((([(⟨74, 1, 1, 1⟩ : Note)].getD 0 ⟨0, 0, 0, 0⟩).midi : ℚ))) = 194 / 3 := by
      norm_num [List.getD]
    rw [hq]
    have hint : pyInt (194 / 3 : ℚ) = 64 := by
      rw [pyInt, if_neg (by norm_num)]
      rw [show (64 : Int) = ((64 : ℤ)) from rfl]
      rw [Int.floor_eq_iff]
      norm_num
    rw [hint]
    decide
  · have hq : ((1 - ((1 : ℕ) : ℚ) / (((2 : ℕ) : ℚ) + 1)) * 60
        + (((1 : ℕ) : ℚ) / (((2 : ℕ) : ℚ) + 1)) * 74) = 194 / 3 := by
      norm_num
    rw [hq]
    have hfloor : ⌊(194 / 3 : ℚ)⌋ = 64 := by
      rw [Int.floor_eq_iff]
      norm_num
    have hround : pyRound (194 / 3 : ℚ) = 65 := by
      simp only [pyRound, hfloor]
      norm_num
    rw [hround]
    decide
